import Mathlib

/-!
# Monitor team resource: mapper, lifecycle, and the CODEOWNERS owners lookup

A shallow embedding of `sysdig/resource_sysdig_monitor_team.go` and
`codeowner/codeowner.go`.

* Go strings are Lean `String`s (sequences of Unicode scalar values); the
  `strings` and `strconv` functions the sources call are defined on the
  character list of the string.
* Go `int` values are `Int`; `Atoi` clamps to the 64-bit range the way
  `strconv.Atoi` does.
* A nil pointer is `none`, a nil or empty slice is `[]`.
* `*schema.ResourceData` is a record with one typed field per schema key, the
  list of keys its schema declares, and the hash of its `user_roles` set.
* The remote client is a state machine over an arbitrary server state; every
  call made through it is appended to a call log.
* A failed Go type assertion (a panic) is `none`.
-/

namespace Sysdig

/-! ## strconv -/

/-- The character of a decimal digit. -/
def digitChar (d : Nat) : Char := Char.ofNat (48 + d)

/-- Decimal digits of `n`, most significant first; `fuel` bounds the number of digits. -/
def formatBits : Nat → Nat → List Char
  | 0, _ => []
  | fuel + 1, n =>
    if n < 10 then [digitChar n] else formatBits fuel (n / 10) ++ [digitChar (n % 10)]

/-- Go `strconv.Itoa`: the decimal string of an integer. -/
def Itoa (i : Int) : String :=
  match i with
  | Int.ofNat n => ⟨formatBits (n + 1) n⟩
  | Int.negSucc n => ⟨'-' :: formatBits (n + 2) (n + 1)⟩

/-- The value of a decimal digit character, `none` for any other character. -/
def digitVal (c : Char) : Option Nat :=
  if 48 ≤ c.toNat ∧ c.toNat ≤ 57 then some (c.toNat - 48) else none

/-- One step of the digit loop of `strconv.ParseUint` in base 10. -/
def parseStep (acc : Option Nat) (c : Char) : Option Nat :=
  match acc, digitVal c with
  | some a, some v => some (a * 10 + v)
  | _, _ => none

/-- The base-10 digit loop: `none` when some character is not a digit. -/
def parseUint (s : List Char) : Option Nat := s.foldl parseStep (some 0)

/-- Largest Go `int` on a 64-bit platform. -/
def maxInt : Int := 2 ^ 63 - 1

/-- Smallest Go `int` on a 64-bit platform. -/
def minInt : Int := -(2 ^ 63)

/-- The values a Go `int` can hold. -/
def IsGoInt (n : Int) : Prop := minInt ≤ n ∧ n ≤ maxInt

/-- The part of `strconv.Atoi` after the sign: empty input and non-digits are syntax
errors with value 0, magnitudes beyond the 64-bit range are clamped with a range error. -/
def atoiDigits (neg : Bool) (ds : List Char) : Int × Option String :=
  match ds with
  | [] => (0, some "invalid syntax")
  | _ =>
    match parseUint ds with
    | none => (0, some "invalid syntax")
    | some n =>
      if neg then
        if (n : Int) > 2 ^ 63 then (minInt, some "value out of range") else (-(n : Int), none)
      else
        if (n : Int) ≥ 2 ^ 63 then (maxInt, some "value out of range") else ((n : Int), none)

/-- Go `strconv.Atoi`: the parsed value and the error, if any. -/
def Atoi (s : String) : Int × Option String :=
  match s.data with
  | [] => (0, some "invalid syntax")
  | '-' :: ds => atoiDigits true ds
  | '+' :: ds => atoiDigits false ds
  | ds => atoiDigits false ds

/-! ## The remote resource (package `v2`) -/

/-- Modelled from the spec: the deployment-mode tag `ClientType`, declared outside the
given sources; the spec has two variants, standard and platform-specific (IBM). -/
inductive ClientType
  | SysdigMonitor
  | IBMMonitor
  deriving DecidableEq, Repr

/-- Modelled from the spec: `v2.UserRoles`, an entry {email, role, isAdmin} of the team's
ordered user-role list. -/
structure UserRoles where
  Email : String
  Role : String
  Admin : Bool
  deriving DecidableEq, Repr

/-- Modelled from the spec: `v2.EntryPoint`, the entry-point block {module, selection}. -/
structure EntryPoint where
  Module : String
  Selection : String
  deriving DecidableEq, Repr

/-- Modelled from the spec: `v2.NamespaceFilters`, the namespace-filter block with its
optional platform-metrics filter string. -/
structure NamespaceFilters where
  IBMPlatformMetrics : Option String
  deriving DecidableEq, Repr

/-- Modelled from the spec: `v2.Team`, the server-side team entity. Nullable booleans and
optional blocks are `Option`s. -/
structure Team where
  ID : Int
  Version : Int
  Theme : String
  Name : String
  Description : String
  Show : String
  Filter : String
  Products : List String
  CanUseSysdigCapture : Option Bool
  CanUseCustomEvents : Option Bool
  CanUseAwsMetrics : Option Bool
  CanUseBeaconMetrics : Option Bool
  DefaultTeam : Bool
  UserRoles : List UserRoles
  EntryPoint : Option EntryPoint
  NamespaceFilters : Option NamespaceFilters
  deriving DecidableEq, Repr

/-! ## The config record accessor (`schema.ResourceData`) -/

/-- An element of the `user_roles` set: the map with keys `email` and `role`. -/
structure RoleMap where
  email : String
  role : String
  deriving DecidableEq, Repr

/-- An element of the `entrypoint` list: the map with keys `type` and `selection`. -/
structure EntrypointMap where
  type : String
  selection : String
  deriving DecidableEq, Repr

/-- A value read from or written to the record (Go `interface{}`). -/
inductive Value
  | nil
  | str (s : String)
  | bool (b : Bool)
  | int (n : Int)
  | roles (l : List RoleMap)
  | entrypoints (l : List EntrypointMap)
  deriving DecidableEq, Repr

/-- Go type assertion `.(string)`; `none` is the panic of a failed assertion. -/
def Value.asString : Value → Option String
  | .str s => some s
  | _ => none

/-- Go type assertion `.(bool)`. -/
def Value.asBool : Value → Option Bool
  | .bool b => some b
  | _ => none

/-- Go type assertion `.(int)`. -/
def Value.asInt : Value → Option Int
  | .int n => some n
  | _ => none

/-- Go `.(*schema.Set).List()`: the elements of a set value in the set's listing order. -/
def Value.asSetList : Value → Option (List RoleMap)
  | .roles l => some l
  | _ => none

/-- Whether a value is the zero value of its type, as `GetOk` tests it. -/
def Value.isZero : Value → Bool
  | .nil => true
  | .str s => s == ""
  | .bool b => !b
  | .int n => n == 0
  | .roles l => l.isEmpty
  | .entrypoints l => l.isEmpty

/-- A pointer to a bool passed to `Set`: a nil pointer is the nil value, otherwise the
pointer is dereferenced. -/
def Value.ofBoolPtr : Option Bool → Value
  | none => .nil
  | some b => .bool b

/-- A pointer to a string passed to `Set`. -/
def Value.ofStringPtr : Option String → Value
  | none => .nil
  | some s => .str s

/-- Adding an element to a `schema.Set`: elements are kept in the order of their hash
code, and an element whose code is already present is not added. -/
def setAdd {α : Type} (hash : α → Nat) (x : α) : List α → List α
  | [] => [x]
  | y :: ys =>
    if hash x < hash y then x :: y :: ys
    else if hash x = hash y then y :: ys
    else y :: setAdd hash x ys

/-- The listing of the `schema.Set` built from a list of elements. -/
def setList {α : Type} (hash : α → Nat) (l : List α) : List α :=
  l.foldl (fun acc x => setAdd hash x acc) []

/-- The config record of one team resource: the keys its schema declares, the hash of the
`user_roles` set, the opaque identity, and the value stored under each key. -/
structure ResourceData where
  schema : List String
  setHash : RoleMap → Nat
  id : String
  version : Int
  theme : String
  name : String
  description : String
  scope_by : String
  filter : String
  enable_ibm_platform_metrics : Bool
  ibm_platform_metrics : String
  can_use_sysdig_capture : Bool
  can_see_infrastructure_events : Bool
  can_use_aws_data : Bool
  user_roles : List RoleMap
  entrypoint : List EntrypointMap
  default_team : Bool

/-- The keys declared by `createBaseMonitorTeamSchema`. -/
def createBaseMonitorTeamSchema : List String :=
  ["theme", "name", "description", "scope_by", "filter", "enable_ibm_platform_metrics",
   "ibm_platform_metrics", "can_use_sysdig_capture", "can_see_infrastructure_events",
   "can_use_aws_data", "user_roles", "entrypoint", "default_team", "version"]

/-- Whether the record's schema declares a top-level key. -/
def ResourceData.declares (d : ResourceData) (key : String) : Bool := d.schema.contains key

/-- Record method `Id`. -/
def ResourceData.Id (d : ResourceData) : String := d.id

/-- Record method `SetId`. -/
def ResourceData.SetId (d : ResourceData) (v : String) : ResourceData := { d with id := v }

/-- The `type` of element 0 of the `entrypoint` list, the zero value when the list is
empty. -/
def epType (d : ResourceData) : String :=
  match d.entrypoint with
  | [] => ""
  | e :: _ => e.type

/-- The `selection` of element 0 of the `entrypoint` list, the zero value when the list
is empty. -/
def epSelection (d : ResourceData) : String :=
  match d.entrypoint with
  | [] => ""
  | e :: _ => e.selection

/-- The value stored under an address, for the addresses the team resource uses. -/
def ResourceData.stored (d : ResourceData) (key : String) : Value :=
  match key with
  | "version" => .int d.version
  | "theme" => .str d.theme
  | "name" => .str d.name
  | "description" => .str d.description
  | "scope_by" => .str d.scope_by
  | "filter" => .str d.filter
  | "enable_ibm_platform_metrics" => .bool d.enable_ibm_platform_metrics
  | "ibm_platform_metrics" => .str d.ibm_platform_metrics
  | "can_use_sysdig_capture" => .bool d.can_use_sysdig_capture
  | "can_see_infrastructure_events" => .bool d.can_see_infrastructure_events
  | "can_use_aws_data" => .bool d.can_use_aws_data
  | "default_team" => .bool d.default_team
  | "user_roles" => .roles (setList d.setHash d.user_roles)
  | "entrypoint" => .entrypoints d.entrypoint
  | "entrypoint.0.type" => .str (epType d)
  | "entrypoint.0.selection" => .str (epSelection d)
  | _ => .nil

/-- The top-level key of an address. -/
def topKey (key : String) : String :=
  match key with
  | "entrypoint.0.type" => "entrypoint"
  | "entrypoint.0.selection" => "entrypoint"
  | k => k

/-- Record method `Get`: the value under an address, the zero value of the key's type
when nothing is stored, and nil when the schema does not declare the key. -/
def ResourceData.Get (d : ResourceData) (key : String) : Value :=
  if d.declares (topKey key) then d.stored key else .nil

/-- Record method `GetOk`: the value and whether it is set to a non-zero value. -/
def ResourceData.GetOk (d : ResourceData) (key : String) : Value × Bool :=
  (d.Get key, !(d.Get key).isZero)

/-- The string written by `Set` for a value: nil writes the zero value, a value of
another type is refused. -/
def Value.writeString : Value → Option String
  | .str s => some s
  | .nil => some ""
  | _ => none

/-- The bool written by `Set` for a value. -/
def Value.writeBool : Value → Option Bool
  | .bool b => some b
  | .nil => some false
  | _ => none

/-- The int written by `Set` for a value. -/
def Value.writeInt : Value → Option Int
  | .int n => some n
  | .nil => some 0
  | _ => none

/-- The `user_roles` elements written by `Set` for a value. -/
def Value.writeRoles : Value → Option (List RoleMap)
  | .roles l => some l
  | .nil => some []
  | _ => none

/-- The `entrypoint` elements written by `Set` for a value. -/
def Value.writeEntrypoints : Value → Option (List EntrypointMap)
  | .entrypoints l => some l
  | .nil => some []
  | _ => none

/-- Writing a value under a key of the schema; `none` when the value does not have the
key's type. -/
def ResourceData.write (d : ResourceData) (key : String) (v : Value) : Option ResourceData :=
  match key with
  | "version" => v.writeInt.map fun n => { d with version := n }
  | "theme" => v.writeString.map fun s => { d with theme := s }
  | "name" => v.writeString.map fun s => { d with name := s }
  | "description" => v.writeString.map fun s => { d with description := s }
  | "scope_by" => v.writeString.map fun s => { d with scope_by := s }
  | "filter" => v.writeString.map fun s => { d with filter := s }
  | "enable_ibm_platform_metrics" =>
    v.writeBool.map fun b => { d with enable_ibm_platform_metrics := b }
  | "ibm_platform_metrics" => v.writeString.map fun s => { d with ibm_platform_metrics := s }
  | "can_use_sysdig_capture" => v.writeBool.map fun b => { d with can_use_sysdig_capture := b }
  | "can_see_infrastructure_events" =>
    v.writeBool.map fun b => { d with can_see_infrastructure_events := b }
  | "can_use_aws_data" => v.writeBool.map fun b => { d with can_use_aws_data := b }
  | "default_team" => v.writeBool.map fun b => { d with default_team := b }
  | "user_roles" => v.writeRoles.map fun l => { d with user_roles := l }
  | "entrypoint" => v.writeEntrypoints.map fun l => { d with entrypoint := l }
  | _ => none

/-- Record method `Set`: fails when the schema does not declare the key or the value does
not have the key's type; the record is unchanged by a failed write. -/
def ResourceData.Set (d : ResourceData) (key : String) (v : Value) : Except String ResourceData :=
  if d.declares key then
    match d.write key v with
    | some d1 => .ok d1
    | none => .error ("Invalid value for: " ++ key)
  else .error ("Invalid address to set: " ++ key)

/-! ## The remote resource client -/

/-- Modelled from the spec: the client interface `v2.TeamInterface`, declared outside the
given sources, with its four calls. The server behind the client has a state `σ`; every
call returns its result and the next server state. -/
structure TeamInterface (σ : Type) where
  CreateTeam : σ → Team → Except String Team × σ
  UpdateTeam : σ → Team → Except String Team × σ
  GetTeamById : σ → Int → Except String Team × σ
  DeleteTeam : σ → Int → Option String × σ

/-- Modelled from the spec: the `SysdigClients` value passed as `meta`, declared outside
the given sources: the deployment-mode tag and the two client constructors, each of which
may fail. -/
structure SysdigClients (σ : Type) where
  GetClientType : ClientType
  ibmMonitorClient : Except String (TeamInterface σ)
  sysdigMonitorClientV2 : Except String (TeamInterface σ)

/-- A call made through the client, with its argument. -/
inductive Call
  | CreateTeam (t : Team)
  | UpdateTeam (t : Team)
  | GetTeamById (id : Int)
  | DeleteTeam (id : Int)
  deriving DecidableEq, Repr

/-- What a lifecycle operation works on: the config record, the server behind the client,
and the log of client calls made so far. -/
structure State (σ : Type) where
  d : ResourceData
  server : σ
  calls : List Call

/-- Diagnostics returned by a lifecycle operation: `[]` is Go nil. -/
abbrev Diagnostics := List String

/-- Go `diag.FromErr` of a non-nil error. -/
def FromErr (err : String) : Diagnostics := [err]

/-! ## `resource_sysdig_monitor_team.go` -/

/-- Source function `getMonitorTeamClient`. -/
def getMonitorTeamClient {σ : Type} (c : SysdigClients σ) : Except String (TeamInterface σ) :=
  match c.GetClientType with
  | .IBMMonitor =>
    match c.ibmMonitorClient with
    | .error err => .error err
    | .ok client => .ok client
  | _ =>
    match c.sysdigMonitorClientV2 with
    | .error err => .error err
    | .ok client => .ok client

/-- Source function `userMonitorRolesToSet`: the loop over the roles, appending one map
per entry that is not an admin. -/
def userMonitorRolesToSet (userRoles : List UserRoles) : List RoleMap :=
  userRoles.foldl
    (fun res role => if role.Admin then res else res ++ [{ email := role.Email, role := role.Role }])
    []

/-- Source function `entrypointToSet`. -/
def entrypointToSet (entrypoint : Option EntryPoint) : List EntrypointMap :=
  match entrypoint with
  | none => []
  | some e => [] ++ [{ type := e.Module, selection := e.Selection }]

/-- One `err = d.Set(key, v); if err != nil return err` step of the mapper: the pair is
the error returned so far and the record; nothing is written once an error is returned. -/
def setStep (r : Option String × ResourceData) (key : String) (v : Value) :
    Option String × ResourceData :=
  match r.1 with
  | some _ => r
  | none =>
    match r.2.Set key v with
    | .error err => (some err, r.2)
    | .ok d1 => (none, d1)

/-- Source function `resourceSysdigMonitorTeamReadIBM`: the returned error and the record. -/
def resourceSysdigMonitorTeamReadIBM (d : ResourceData) (t : Team) :
    Option String × ResourceData :=
  let ibmPlatformMetrics : Option String :=
    match t.NamespaceFilters with
    | some nf => nf.IBMPlatformMetrics
    | none => none
  let r := setStep (none, d) "enable_ibm_platform_metrics" (.ofBoolPtr t.CanUseBeaconMetrics)
  setStep r "ibm_platform_metrics" (.ofStringPtr ibmPlatformMetrics)

/-- Source function `teamMonitorToResourceData`: the returned error and the record as the
writes up to the first failure left it. -/
def teamMonitorToResourceData {σ : Type} (d : ResourceData) (c : SysdigClients σ) (t : Team) :
    Option String × ResourceData :=
  let r : Option String × ResourceData := (none, d.SetId (Itoa t.ID))
  let r := setStep r "version" (.int t.Version)
  let r := setStep r "theme" (.str t.Theme)
  let r := setStep r "name" (.str t.Name)
  let r := setStep r "description" (.str t.Description)
  let r := setStep r "scope_by" (.str t.Show)
  let r := setStep r "filter" (.str t.Filter)
  let r := setStep r "can_use_sysdig_capture" (.ofBoolPtr t.CanUseSysdigCapture)
  let r := setStep r "can_see_infrastructure_events" (.ofBoolPtr t.CanUseCustomEvents)
  let r := setStep r "can_use_aws_data" (.ofBoolPtr t.CanUseAwsMetrics)
  let r := setStep r "default_team" (.bool t.DefaultTeam)
  let r := setStep r "user_roles" (.roles (userMonitorRolesToSet t.UserRoles))
  let r := setStep r "entrypoint" (.entrypoints (entrypointToSet t.EntryPoint))
  match r.1 with
  | some _ => r
  | none =>
    if c.GetClientType = ClientType.IBMMonitor then resourceSysdigMonitorTeamReadIBM r.2 t
    else (none, r.2)

/-- Source function `updateNamespaceFilters`. -/
def updateNamespaceFilters (filters : Option NamespaceFilters) (update : NamespaceFilters) :
    Option NamespaceFilters :=
  let filters : NamespaceFilters :=
    match filters with
    | none => { IBMPlatformMetrics := none }
    | some f => f
  let filters : NamespaceFilters :=
    match update.IBMPlatformMetrics with
    | some v => { filters with IBMPlatformMetrics := some v }
    | none => filters
  some filters

/-- Source function `teamFromResourceDataIBM`; `none` is a failed type assertion. -/
def teamFromResourceDataIBM (d : ResourceData) (t : Team) : Option Team := do
  let canUseBeaconMetrics ← (d.Get "enable_ibm_platform_metrics").asBool
  let t := { t with CanUseBeaconMetrics := some canUseBeaconMetrics }
  match d.GetOk "ibm_platform_metrics" with
  | (v, true) =>
    let metrics ← v.asString
    some { t with NamespaceFilters :=
      updateNamespaceFilters t.NamespaceFilters { IBMPlatformMetrics := some metrics } }
  | (_, false) => some t

/-- Source function `teamFromResourceData`; `none` is a failed type assertion. -/
def teamFromResourceData (d : ResourceData) (clientType : ClientType) : Option Team := do
  let canUseSysdigCapture ← (d.Get "can_use_sysdig_capture").asBool
  let canUseCustomEvents ← (d.Get "can_see_infrastructure_events").asBool
  let canUseAwsMetrics ← (d.Get "can_use_aws_data").asBool
  let canUseBeaconMetrics := false
  let theme ← (d.Get "theme").asString
  let name ← (d.Get "name").asString
  let description ← (d.Get "description").asString
  let scopeBy ← (d.Get "scope_by").asString
  let filter ← (d.Get "filter").asString
  let defaultTeam ← (d.Get "default_team").asBool
  let t : Team :=
    { ID := 0, Version := 0, Theme := theme, Name := name, Description := description,
      Show := scopeBy, Filter := filter, Products := [],
      CanUseSysdigCapture := some canUseSysdigCapture,
      CanUseCustomEvents := some canUseCustomEvents,
      CanUseAwsMetrics := some canUseAwsMetrics,
      CanUseBeaconMetrics := some canUseBeaconMetrics,
      DefaultTeam := defaultTeam, UserRoles := [], EntryPoint := none,
      NamespaceFilters := none }
  let roleMaps ← (d.Get "user_roles").asSetList
  let userRoles : List UserRoles :=
    roleMaps.foldl
      (fun userRoles ur => userRoles ++ [{ Email := ur.email, Role := ur.role, Admin := false }])
      []
  let t := { t with UserRoles := userRoles }
  let module ← (d.Get "entrypoint.0.type").asString
  let selection ←
    (match d.GetOk "entrypoint.0.selection" with
      | (val, true) => val.asString
      | (_, false) => some "")
  let t := { t with EntryPoint := some { Module := module, Selection := selection } }
  if clientType = ClientType.IBMMonitor then teamFromResourceDataIBM d t else some t

/-- Source function `resourceSysdigMonitorTeamRead`: the diagnostics returned and the
state it leaves. -/
def resourceSysdigMonitorTeamRead {σ : Type} (clients : SysdigClients σ) (st : State σ) :
    Diagnostics × State σ :=
  match getMonitorTeamClient clients with
  | .error err => (FromErr err, st)
  | .ok client =>
    let id := (Atoi st.d.Id).1
    let (res, server) := client.GetTeamById st.server id
    let calls := st.calls ++ [Call.GetTeamById id]
    match res with
    | .error err => (FromErr err, { d := st.d.SetId "", server := server, calls := calls })
    | .ok t =>
      match teamMonitorToResourceData st.d clients t with
      | (some err, d) => (FromErr err, { d := d.SetId "", server := server, calls := calls })
      | (none, d) => ([], { d := d, server := server, calls := calls })

/-- Source function `resourceSysdigMonitorTeamCreate`; the diagnostics of the follow-up
read are dropped and nil is returned. `none` is a failed type assertion. -/
def resourceSysdigMonitorTeamCreate {σ : Type} (clients : SysdigClients σ) (st : State σ) :
    Option (Diagnostics × State σ) :=
  match getMonitorTeamClient clients with
  | .error err => some (FromErr err, st)
  | .ok client => do
    let team ← teamFromResourceData st.d clients.GetClientType
    let team := { team with Products := ["SDC"] }
    let (res, server) := client.CreateTeam st.server team
    let calls := st.calls ++ [Call.CreateTeam team]
    match res with
    | .error err => some (FromErr err, { d := st.d, server := server, calls := calls })
    | .ok team =>
      let d := st.d.SetId (Itoa team.ID)
      let (_, st1) := resourceSysdigMonitorTeamRead clients { d := d, server := server, calls := calls }
      some ([], st1)

/-- Source function `resourceSysdigMonitorTeamUpdate`; the diagnostics of the follow-up
read are dropped and nil is returned. `none` is a failed type assertion. -/
def resourceSysdigMonitorTeamUpdate {σ : Type} (clients : SysdigClients σ) (st : State σ) :
    Option (Diagnostics × State σ) :=
  match getMonitorTeamClient clients with
  | .error err => some (FromErr err, st)
  | .ok client => do
    let t ← teamFromResourceData st.d clients.GetClientType
    let t := { t with Products := ["SDC"] }
    let version ← (st.d.Get "version").asInt
    let t := { t with Version := version }
    let t := { t with ID := (Atoi st.d.Id).1 }
    let (res, server) := client.UpdateTeam st.server t
    let calls := st.calls ++ [Call.UpdateTeam t]
    match res with
    | .error err => some (FromErr err, { d := st.d, server := server, calls := calls })
    | .ok _ =>
      let (_, st1) := resourceSysdigMonitorTeamRead clients { d := st.d, server := server, calls := calls }
      some ([], st1)

/-- Source function `resourceSysdigMonitorTeamDelete`. -/
def resourceSysdigMonitorTeamDelete {σ : Type} (clients : SysdigClients σ) (st : State σ) :
    Diagnostics × State σ :=
  match getMonitorTeamClient clients with
  | .error err => (FromErr err, st)
  | .ok client =>
    let id := (Atoi st.d.Id).1
    let (res, server) := client.DeleteTeam st.server id
    let calls := st.calls ++ [Call.DeleteTeam id]
    match res with
    | some err => (FromErr err, { d := st.d, server := server, calls := calls })
    | none => ([], { d := st.d, server := server, calls := calls })

/-! ## Auxiliary notions used to state and prove the properties -/

/-- Strictly increasing hash codes along a list. -/
def HashSorted {α : Type} (hash : α → Nat) (l : List α) : Prop :=
  l.Pairwise (fun a b => hash a < hash b)

/-- The addresses `teamFromResourceData` and `teamFromResourceDataIBM` read. -/
def readKeys : List String :=
  ["can_use_sysdig_capture", "can_see_infrastructure_events", "can_use_aws_data", "theme",
   "name", "description", "scope_by", "filter", "default_team", "user_roles",
   "entrypoint.0.type", "entrypoint.0.selection", "enable_ibm_platform_metrics",
   "ibm_platform_metrics"]

/-- The addresses the lifecycle operations read: those of `readKeys` and `version`. -/
def allKeys : List String := "version" :: readKeys

/-- Two records that `teamFromResourceData` cannot tell apart: same schema, same set hash,
and the same value stored under every address it reads. -/
def Agrees (cfg d : ResourceData) : Prop :=
  d.schema = cfg.schema ∧ d.setHash = cfg.setHash ∧ ∀ k ∈ readKeys, d.stored k = cfg.stored k

/-- The team `teamFromResourceData` builds from a record when no type assertion fails. -/
def teamOf (d : ResourceData) (clientType : ClientType) : Team :=
  { ID := 0, Version := 0, Theme := d.theme, Name := d.name, Description := d.description,
    Show := d.scope_by, Filter := d.filter, Products := [],
    CanUseSysdigCapture := some d.can_use_sysdig_capture,
    CanUseCustomEvents := some d.can_see_infrastructure_events,
    CanUseAwsMetrics := some d.can_use_aws_data,
    CanUseBeaconMetrics :=
      some (if clientType = ClientType.IBMMonitor then d.enable_ibm_platform_metrics else false),
    DefaultTeam := d.default_team,
    UserRoles := (setList d.setHash d.user_roles).map
      (fun ur => { Email := ur.email, Role := ur.role, Admin := false }),
    EntryPoint := some { Module := epType d, Selection := epSelection d },
    NamespaceFilters :=
      if clientType = ClientType.IBMMonitor ∧ d.declares "ibm_platform_metrics" = true
          ∧ d.ibm_platform_metrics ≠ "" then
        some { IBMPlatformMetrics := some d.ibm_platform_metrics }
      else none }

/-- The selection `teamFromResourceData` gives the entry point: the value at
`entrypoint.0.selection` when `GetOk` reports it set, else the empty string. -/
def entrypointSelection (d : ResourceData) : Option String :=
  match d.GetOk "entrypoint.0.selection" with
  | (val, true) => val.asString
  | (_, false) => some ""

/-- The record and error after the twelve writes of `teamMonitorToResourceData` that both
variants make. -/
def commonWrites (d : ResourceData) (t : Team) : Option String × ResourceData :=
  setStep (setStep (setStep (setStep (setStep (setStep (setStep (setStep (setStep (setStep
    (setStep (setStep (none, d.SetId (Itoa t.ID))
      "version" (.int t.Version))
      "theme" (.str t.Theme))
      "name" (.str t.Name))
      "description" (.str t.Description))
      "scope_by" (.str t.Show))
      "filter" (.str t.Filter))
      "can_use_sysdig_capture" (.ofBoolPtr t.CanUseSysdigCapture))
      "can_see_infrastructure_events" (.ofBoolPtr t.CanUseCustomEvents))
      "can_use_aws_data" (.ofBoolPtr t.CanUseAwsMetrics))
      "default_team" (.bool t.DefaultTeam))
      "user_roles" (.roles (userMonitorRolesToSet t.UserRoles)))
      "entrypoint" (.entrypoints (entrypointToSet t.EntryPoint))

/-- The keys a record must declare for `teamFromResourceData` not to fail in the standard
variant. -/
def DeclaresCommon (d : ResourceData) : Prop :=
  d.declares "can_use_sysdig_capture" = true ∧ d.declares "can_see_infrastructure_events" = true ∧
  d.declares "can_use_aws_data" = true ∧ d.declares "theme" = true ∧ d.declares "name" = true ∧
  d.declares "description" = true ∧ d.declares "scope_by" = true ∧ d.declares "filter" = true ∧
  d.declares "default_team" = true ∧ d.declares "user_roles" = true ∧
  d.declares "entrypoint" = true

/-- The team `resourceSysdigMonitorTeamCreate` passes to `CreateTeam`: the team built from
the record with the product list set. -/
def createArg (team : Team) : Team := { team with Products := ["SDC"] }

/-- The team `resourceSysdigMonitorTeamUpdate` passes to `UpdateTeam`: the team built from
the record with the product list, the version and the ID set. -/
def updateArg (t : Team) (version id : Int) : Team :=
  { t with Products := ["SDC"], Version := version, ID := id }

/-! ## Concrete records and clients -/

/-- A record of the team resource: the schema of `createBaseMonitorTeamSchema`, two user
roles and an entry point. -/
def exampleRecord : ResourceData :=
  { schema := createBaseMonitorTeamSchema
    setHash := fun r => r.email.length
    id := ""
    version := 0
    theme := "#05C391"
    name := "devops"
    description := "the devops team"
    scope_by := "host"
    filter := ""
    enable_ibm_platform_metrics := true
    ibm_platform_metrics := "ibm_location = eu-de"
    can_use_sysdig_capture := true
    can_see_infrastructure_events := false
    can_use_aws_data := false
    user_roles :=
      [{ email := "carol@example.com", role := "ROLE_TEAM_EDIT" },
       { email := "bob@example.com", role := "ROLE_TEAM_READ" }]
    entrypoint := [{ type := "Dashboards", selection := "" }]
    default_team := false }

/-- The team `teamFromResourceData` builds from `exampleRecord` in the IBM variant. -/
def exampleTeam : Team :=
  { ID := 0, Version := 0, Theme := "#05C391", Name := "devops",
    Description := "the devops team", Show := "host", Filter := "", Products := [],
    CanUseSysdigCapture := some true, CanUseCustomEvents := some false,
    CanUseAwsMetrics := some false, CanUseBeaconMetrics := some true, DefaultTeam := false,
    UserRoles :=
      [{ Email := "bob@example.com", Role := "ROLE_TEAM_READ", Admin := false },
       { Email := "carol@example.com", Role := "ROLE_TEAM_EDIT", Admin := false }],
    EntryPoint := some { Module := "Dashboards", Selection := "" },
    NamespaceFilters := some { IBMPlatformMetrics := some "ibm_location = eu-de" } }

/-- A server that gives the team it creates the ID 42, stores the last team written, and
finds the stored team under its ID. The state is the stored team, if any. -/
def storeClient : TeamInterface (Option Team) :=
  { CreateTeam := fun _ t => (.ok { t with ID := 42, Version := 1 }, some { t with ID := 42, Version := 1 })
    UpdateTeam := fun _ t => (.ok { t with Version := t.Version + 1 }, some { t with Version := t.Version + 1 })
    GetTeamById := fun s id =>
      match s with
      | some t => if t.ID = id then (.ok t, s) else (.error "team not found", s)
      | none => (.error "team not found", s)
    DeleteTeam := fun _ _ => (none, none) }

/-- A server that creates and updates like `storeClient` and fails every lookup. -/
def lostClient : TeamInterface (Option Team) :=
  { storeClient with GetTeamById := fun s _ => (.error "team not found", s) }

/-- The clients value of a deployment mode whose two constructors return one client. -/
def clientsOf {σ : Type} (client : TeamInterface σ) (clientType : ClientType) : SysdigClients σ :=
  { GetClientType := clientType, ibmMonitorClient := .ok client,
    sysdigMonitorClientV2 := .ok client }

/-- The state before the first operation on `exampleRecord`: nothing stored on the server,
no call made. -/
def exampleState : State (Option Team) := { d := exampleRecord, server := none, calls := [] }

end Sysdig

namespace Codeowner

/-! ## `codeowner.go`

`LoadOwners` is embedded from the point where `ruleset.Match(name)` has returned: locating,
reading and parsing the CODEOWNERS file and the process-wide cache are outside the
embedding. -/

/-- Go `strings.HasPrefix`. -/
def HasPrefix (s p : String) : Bool := p.data.isPrefixOf s.data

/-- Go `strings.HasSuffix`. -/
def HasSuffix (s suffix : String) : Bool := suffix.data.isSuffixOf s.data

/-- Go `strings.TrimPrefix`: `s` without the leading `p` when it has it, else `s`. -/
def TrimPrefix (s p : String) : String :=
  if HasPrefix s p then ⟨s.data.drop p.data.length⟩ else s

/-- Go `strings.TrimSuffix`: `s` without the trailing `suffix` when it has it, else `s`. -/
def TrimSuffix (s suffix : String) : String :=
  if HasSuffix s suffix then ⟨s.data.take (s.data.length - suffix.data.length)⟩ else s

/-- Go `unicode.IsSpace`: the characters with the Unicode White_Space property. -/
def isSpace (c : Char) : Bool :=
  let n := c.toNat
  (9 ≤ n && n ≤ 13) || n == 32 || n == 0x85 || n == 0xA0 || n == 0x1680 ||
    (0x2000 ≤ n && n ≤ 0x200A) || n == 0x2028 || n == 0x2029 || n == 0x202F ||
    n == 0x205F || n == 0x3000

/-- Go `strings.TrimSpace`: `s` without leading and trailing white space. -/
def TrimSpace (s : String) : String :=
  ⟨((s.data.dropWhile isSpace).reverse.dropWhile isSpace).reverse⟩

/-- Splitting a character list at every occurrence of a separator character. -/
def splitOn (sep : Char) : List Char → List (List Char)
  | [] => [[]]
  | c :: cs =>
    if c = sep then [] :: splitOn sep cs
    else
      match splitOn sep cs with
      | [] => [[c]]
      | t :: ts => (c :: t) :: ts

/-- Go `strings.Split` for a separator of one character: the substrings between the
occurrences of the separator, one more than there are occurrences. -/
def Split (s : String) (sep : Char) : List String := (splitOn sep s.data).map String.mk

/-- Go `fmt.Sprintf("<@%s>", s)`. -/
def Sprintf (s : String) : String := "<@" ++ s ++ ">"

/-- An item of a regular expression that is a sequence of character classes, each taken
once, one or more times, or any number of times. -/
inductive Item
  | one (p : Char → Bool)
  | plus (p : Char → Bool)
  | star (p : Char → Bool)

/-- Repetition: `k` accepts the rest after any number of characters of class `p`. -/
def starLoop (p : Char → Bool) (k : List Char → Bool) : List Char → Bool
  | [] => k []
  | c :: cs => k (c :: cs) || (p c && starLoop p k cs)

/-- Whether the items match at the start of the text (the pattern is anchored by `^` and
not at the end, so the rest of the text is free). -/
def matchItems : List Item → List Char → Bool
  | [], _ => true
  | Item.one p :: rest, s =>
    match s with
    | [] => false
    | c :: cs => p c && matchItems rest cs
  | Item.plus p :: rest, s =>
    match s with
    | [] => false
    | c :: cs => p c && starLoop p (matchItems rest) cs
  | Item.star p :: rest, s => starLoop p (matchItems rest) s

/-- The items matching the characters of a literal. -/
def literal (s : String) : List Item := s.data.map (fun a => Item.one (fun c => c == a))

/-- The class of `.`: any character but a newline. -/
def anyChar (c : Char) : Bool := c != '\n'

/-- The pattern of the source, `^(report to\:\ +).*`: the literal `report to:`, one or more
space characters, then anything. -/
def reportPattern : List Item :=
  literal "report to:" ++ [Item.plus (fun c => c == ' '), Item.star anyChar]

/-- Go `(*Regexp).MatchString` for an anchored pattern. -/
def MatchString (r : List Item) (s : String) : Bool := matchItems r s.data

/-- A matched rule of the CODEOWNERS ruleset (package `codeowners`), of which `LoadOwners`
uses the comment. -/
structure Rule where
  Comment : String

/-- The loop `for i := 0; i < len(owners); i++` of `LoadOwners`; `fuel` bounds the number
of iterations. -/
def ownersLoop : Nat → Nat → List String → List String
  | 0, _, owners => owners
  | fuel + 1, i, owners =>
    if i < owners.length then
      let owners := owners.set i (TrimPrefix (owners.getD i "") "<@")
      let owners := owners.set i (TrimSuffix (owners.getD i "") ">")
      let owners := owners.set i (Sprintf (owners.getD i ""))
      ownersLoop fuel (i + 1) owners
    else owners

/-- Source function `LoadOwners` from the result `found` of `ruleset.Match(name)` on. -/
def LoadOwners (found : Except String Rule) : Except String (List String) :=
  match found with
  | .error err => .error err
  | .ok rule =>
    if !MatchString reportPattern rule.Comment then .error "missing report comment"
    else
      let owners := Split (TrimSpace (TrimPrefix rule.Comment "report to: ")) ' '
      .ok (ownersLoop owners.length 0 owners)

/-- The class `\s` of the pattern language: tab, newline, form feed, carriage return and
space. -/
def reSpace (c : Char) : Bool :=
  c == '\t' || c == '\n' || c == '\x0c' || c == '\r' || c == ' '

/-- The pattern as the specification words it, `^report to:\s+.*`: the literal
`report to:`, one or more white space characters, then anything. -/
def specPattern : List Item :=
  literal "report to:" ++ [Item.plus reSpace, Item.star anyChar]

/-- The handle of a token: the token without a leading `<@` and a trailing `>`. -/
def handle (token : String) : String := TrimSuffix (TrimPrefix token "<@") ">"

end Codeowner

/-! # Properties -/

namespace Sysdig

theorem digitVal_digitChar (k : Nat) (hk : k < 10) : digitVal (digitChar k) = some k := by
  interval_cases k <;> rfl

theorem parseUint_append (l : List Char) (c : Char) :
    parseUint (l ++ [c]) = parseStep (parseUint l) c := by
  simp [parseUint, List.foldl_append]

theorem parseUint_formatBits (fuel n : Nat) (h : n < fuel) :
    parseUint (formatBits fuel n) = some n := by
  induction fuel generalizing n with
  | zero => omega
  | succ fuel ih =>
    unfold formatBits
    split
    · rename_i h10
      simp [parseUint, parseStep, digitVal_digitChar n h10]
    · rename_i h10
      rw [parseUint_append, ih (n / 10) (by omega)]
      simp [parseStep, digitVal_digitChar (n % 10) (Nat.mod_lt _ (by norm_num))]
      omega

theorem formatBits_head (fuel n : Nat) (h : n < fuel) :
    ∃ k, k < 10 ∧ ∃ tl, formatBits fuel n = digitChar k :: tl := by
  induction fuel generalizing n with
  | zero => omega
  | succ fuel ih =>
    unfold formatBits
    split
    · rename_i h10
      exact ⟨n, h10, [], rfl⟩
    · obtain ⟨k, hk, tl, htl⟩ := ih (n / 10) (by omega)
      exact ⟨k, hk, tl ++ [digitChar (n % 10)], by simp [htl]⟩

theorem Atoi_digits (k : Nat) (hk : k < 10) (tl : List Char) :
    Atoi ⟨digitChar k :: tl⟩ = atoiDigits false (digitChar k :: tl) := by
  interval_cases k <;> rfl

theorem Atoi_Itoa (n : Int) (h : IsGoInt n) : Atoi (Itoa n) = (n, none) := by
  unfold IsGoInt minInt maxInt at h
  cases n with
  | ofNat m =>
    obtain ⟨k, hk, tl, htl⟩ := formatBits_head (m + 1) m (by omega)
    have hp := parseUint_formatBits (m + 1) m (by omega)
    simp only [Itoa, htl, Atoi_digits k hk tl]
    rw [htl] at hp
    simp only [atoiDigits, hp]
    have hlt : ¬ ((m : Int) ≥ 2 ^ 63) := by
      have := h.2
      simp at this ⊢
      omega
    simp only [Bool.false_eq_true, if_false, if_neg hlt]
    rfl
  | negSucc m =>
    have hp := parseUint_formatBits (m + 2) (m + 1) (by omega)
    obtain ⟨k, hk, tl, htl⟩ := formatBits_head (m + 2) (m + 1) (by omega)
    simp only [Itoa, Atoi]
    rw [htl] at hp ⊢
    simp only [atoiDigits, hp]
    have hlt : ¬ (((m + 1 : Nat) : Int) > 2 ^ 63) := by
      have := h.1
      simp [Int.negSucc_eq] at this ⊢
      omega
    simp only [if_true, if_neg hlt]
    rfl

theorem write_frame (d d1 : ResourceData) (key : String) (v : Value)
    (h : d.write key v = some d1) :
    d1.schema = d.schema ∧ d1.setHash = d.setHash ∧ d1.id = d.id ∧
      ∀ k ∈ allKeys, topKey k ≠ key → d1.stored k = d.stored k := by
  unfold ResourceData.write at h
  split at h <;> first
    | cases h
    | (simp only [Option.map_eq_some'] at h
       obtain ⟨x, -, rfl⟩ := h
       refine ⟨rfl, rfl, rfl, ?_⟩
       intro k hk hne
       simp only [allKeys, readKeys, List.mem_cons, List.mem_singleton, List.mem_nil_iff,
         or_false] at hk
       rcases hk with rfl | rfl | rfl | rfl | rfl | rfl | rfl | rfl | rfl | rfl | rfl | rfl | rfl
         | rfl | rfl <;>
         first
           | rfl
           | exact absurd rfl hne)

theorem readKeys_sub (k : String) (hk : k ∈ readKeys) : k ∈ allKeys :=
  List.mem_cons_of_mem _ hk

theorem agrees_refl (cfg : ResourceData) : Agrees cfg cfg := ⟨rfl, rfl, fun _ _ => rfl⟩

theorem agrees_setId (cfg d : ResourceData) (s : String) (h : Agrees cfg d) :
    Agrees cfg (d.SetId s) := h

theorem setStep_agrees (cfg : ResourceData) (r : Option String × ResourceData) (key : String)
    (v : Value) (hr : Agrees cfg r.2)
    (hself : ∀ d1, cfg.declares key = true → r.2.write key v = some d1 →
      ∀ k ∈ readKeys, topKey k = key → d1.stored k = cfg.stored k) :
    Agrees cfg (setStep r key v).2 := by
  unfold setStep
  cases h1 : r.1 with
  | some e => exact hr
  | none =>
    simp only [ResourceData.Set]
    by_cases hd : r.2.declares key = true
    · rw [if_pos hd]
      cases hw : r.2.write key v with
      | none => exact hr
      | some d1 =>
        obtain ⟨f1, f2, -, f4⟩ := write_frame r.2 d1 key v hw
        have hcd : cfg.declares key = true := by
          have := hr.1
          unfold ResourceData.declares at hd ⊢
          rw [← this]; exact hd
        refine ⟨f1.trans hr.1, f2.trans hr.2.1, ?_⟩
        intro k hk
        by_cases htk : topKey k = key
        · exact hself d1 hcd hw k hk htk
        · exact (f4 k (readKeys_sub k hk) htk).trans (hr.2.2 k hk)
    · rw [if_neg hd]; exact hr

theorem Get_eq_of_agrees (cfg d : ResourceData) (h : Agrees cfg d) (k : String)
    (hk : k ∈ readKeys) : d.Get k = cfg.Get k := by
  unfold ResourceData.Get ResourceData.declares
  rw [h.1, h.2.2 k hk]


theorem setAdd_bound {α : Type} (hash : α → Nat) (x : α) (l : List α) (b : Nat)
    (hx : b < hash x) (hl : ∀ y ∈ l, b < hash y) : ∀ y ∈ setAdd hash x l, b < hash y := by
  induction l with
  | nil => simpa [setAdd] using hx
  | cons y ys ih =>
    intro z hz
    unfold setAdd at hz
    split at hz
    · simp only [List.mem_cons] at hz
      rcases hz with rfl | rfl | hz
      · exact hx
      · exact hl _ (List.mem_cons_self _ _)
      · exact hl _ (List.mem_cons_of_mem _ hz)
    · split at hz
      · exact hl _ hz
      · simp only [List.mem_cons] at hz
        rcases hz with rfl | hz
        · exact hl _ (List.mem_cons_self _ _)
        · exact ih (fun w hw => hl _ (List.mem_cons_of_mem _ hw)) z hz

theorem setAdd_sorted {α : Type} (hash : α → Nat) (x : α) (l : List α)
    (hl : HashSorted hash l) : HashSorted hash (setAdd hash x l) := by
  induction l with
  | nil => simp [setAdd, HashSorted]
  | cons y ys ih =>
    unfold HashSorted at hl ih ⊢
    rw [List.pairwise_cons] at hl
    unfold setAdd
    split
    · rename_i hlt
      refine List.pairwise_cons.2 ⟨?_, List.pairwise_cons.2 hl⟩
      intro z hz
      simp only [List.mem_cons] at hz
      rcases hz with rfl | hz
      · exact hlt
      · exact lt_trans hlt (hl.1 z hz)
    · split
      · exact List.pairwise_cons.2 hl
      · rename_i h1 h2
        refine List.pairwise_cons.2 ⟨?_, ih hl.2⟩
        exact setAdd_bound hash x ys (hash y) (by omega) hl.1

theorem foldl_setAdd_sorted {α : Type} (hash : α → Nat) (l acc : List α)
    (hacc : HashSorted hash acc) :
    HashSorted hash (l.foldl (fun acc x => setAdd hash x acc) acc) := by
  induction l generalizing acc with
  | nil => simpa using hacc
  | cons x xs ih => exact ih _ (setAdd_sorted hash x acc hacc)

theorem setList_sorted {α : Type} (hash : α → Nat) (l : List α) :
    HashSorted hash (setList hash l) :=
  foldl_setAdd_sorted hash l [] List.Pairwise.nil

theorem setAdd_last {α : Type} (hash : α → Nat) (x : α) (acc : List α)
    (h : ∀ y ∈ acc, hash y < hash x) : setAdd hash x acc = acc ++ [x] := by
  induction acc with
  | nil => rfl
  | cons y ys ih =>
    have hy := h y (List.mem_cons_self _ _)
    unfold setAdd
    rw [if_neg (by omega), if_neg (by omega), ih (fun w hw => h w (List.mem_cons_of_mem _ hw))]
    rfl

theorem foldl_setAdd_of_sorted {α : Type} (hash : α → Nat) (s acc : List α)
    (h : HashSorted hash (acc ++ s)) :
    s.foldl (fun acc x => setAdd hash x acc) acc = acc ++ s := by
  induction s generalizing acc with
  | nil => simp
  | cons x xs ih =>
    have hx : ∀ y ∈ acc, hash y < hash x := by
      intro y hy
      unfold HashSorted at h
      rw [List.pairwise_append] at h
      exact h.2.2 y hy x (List.mem_cons_self _ _)
    rw [List.foldl_cons, setAdd_last hash x acc hx, ih]
    · simp
    · simpa using h

theorem setList_of_sorted {α : Type} (hash : α → Nat) (s : List α) (h : HashSorted hash s) :
    setList hash s = s := by
  have := foldl_setAdd_of_sorted hash s [] (by simpa using h)
  simpa [setList] using this

theorem setList_idem {α : Type} (hash : α → Nat) (l : List α) :
    setList hash (setList hash l) = setList hash l :=
  setList_of_sorted hash _ (setList_sorted hash l)

theorem foldl_append_singleton {α β : Type} (f : α → β) (l : List α) (init : List β) :
    l.foldl (fun acc x => acc ++ [f x]) init = init ++ l.map f := by
  induction l generalizing init with
  | nil => simp
  | cons x xs ih => simp [ih]

theorem asBool_eq_some (v : Value) (b : Bool) : v.asBool = some b ↔ v = .bool b := by
  cases v <;> simp [Value.asBool]
theorem asString_eq_some (v : Value) (s : String) : v.asString = some s ↔ v = .str s := by
  cases v <;> simp [Value.asString]
theorem asSetList_eq_some (v : Value) (l : List RoleMap) : v.asSetList = some l ↔ v = .roles l := by
  cases v <;> simp [Value.asSetList]

theorem Get_inv (d : ResourceData) (k : String) (v : Value) (h : d.Get k = v) (hv : v ≠ .nil) :
    d.declares (topKey k) = true ∧ d.stored k = v := by
  unfold ResourceData.Get at h
  by_cases hd : d.declares (topKey k) = true
  · rw [if_pos hd] at h; exact ⟨hd, h⟩
  · rw [if_neg hd] at h; exact absurd h.symm hv

theorem teamFromResourceData_eq (d : ResourceData) (v : ClientType) :
    teamFromResourceData d v =
      ((d.Get "can_use_sysdig_capture").asBool.bind fun c1 =>
       (d.Get "can_see_infrastructure_events").asBool.bind fun c2 =>
       (d.Get "can_use_aws_data").asBool.bind fun c3 =>
       (d.Get "theme").asString.bind fun th =>
       (d.Get "name").asString.bind fun nm =>
       (d.Get "description").asString.bind fun ds =>
       (d.Get "scope_by").asString.bind fun sc =>
       (d.Get "filter").asString.bind fun fl =>
       (d.Get "default_team").asBool.bind fun dt =>
       (d.Get "user_roles").asSetList.bind fun rm =>
       (d.Get "entrypoint.0.type").asString.bind fun md =>
       (entrypointSelection d).bind fun sel =>
       if v = ClientType.IBMMonitor then
         teamFromResourceDataIBM d
           { ID := 0, Version := 0, Theme := th, Name := nm, Description := ds, Show := sc,
             Filter := fl, Products := [], CanUseSysdigCapture := some c1,
             CanUseCustomEvents := some c2, CanUseAwsMetrics := some c3,
             CanUseBeaconMetrics := some false, DefaultTeam := dt,
             UserRoles := rm.foldl
               (fun (userRoles : List UserRoles) (ur : RoleMap) =>
                 userRoles ++ [({ Email := ur.email, Role := ur.role, Admin := false } : UserRoles)]) [],
             EntryPoint := some { Module := md, Selection := sel }, NamespaceFilters := none }
       else some
           { ID := 0, Version := 0, Theme := th, Name := nm, Description := ds, Show := sc,
             Filter := fl, Products := [], CanUseSysdigCapture := some c1,
             CanUseCustomEvents := some c2, CanUseAwsMetrics := some c3,
             CanUseBeaconMetrics := some false, DefaultTeam := dt,
             UserRoles := rm.foldl
               (fun (userRoles : List UserRoles) (ur : RoleMap) =>
                 userRoles ++ [({ Email := ur.email, Role := ur.role, Admin := false } : UserRoles)]) [],
             EntryPoint := some { Module := md, Selection := sel }, NamespaceFilters := none }) := rfl

theorem teamFromResourceDataIBM_eq (d : ResourceData) (t : Team) :
    teamFromResourceDataIBM d t =
      ((d.Get "enable_ibm_platform_metrics").asBool.bind fun b =>
        match d.GetOk "ibm_platform_metrics" with
        | (v, true) => v.asString.bind fun metrics =>
            some { t with CanUseBeaconMetrics := some b, NamespaceFilters :=
              updateNamespaceFilters t.NamespaceFilters { IBMPlatformMetrics := some metrics } }
        | (_, false) => some { t with CanUseBeaconMetrics := some b }) := rfl

theorem selection_inv (d : ResourceData) (sel : String)
    (hdecl : d.declares "entrypoint" = true)
    (h : entrypointSelection d = some sel) : sel = epSelection d := by
  have hg : d.Get "entrypoint.0.selection" = .str (epSelection d) := by
    show (if d.declares "entrypoint" = true then _ else _) = _
    rw [if_pos hdecl]
    rfl
  unfold entrypointSelection ResourceData.GetOk at h
  rw [hg] at h
  cases hz : (!(Value.str (epSelection d)).isZero) with
  | true =>
    rw [hz] at h
    exact (Option.some.inj h).symm
  | false =>
    rw [hz] at h
    have h1 : sel = "" := (Option.some.inj h).symm
    have h2 : epSelection d = "" := by simpa [Value.isZero] using hz
    rw [h1, h2]

theorem teamFromResourceData_inv (cfg : ResourceData) (v : ClientType) (r : Team)
    (h : teamFromResourceData cfg v = some r) : r = teamOf cfg v := by
  rw [teamFromResourceData_eq] at h
  simp only [Option.bind_eq_some, asBool_eq_some, asString_eq_some, asSetList_eq_some] at h
  obtain ⟨c1, h1, c2, h2, c3, h3, th, h4, nm, h5, ds, h6, sc, h7, fl, h8, dt, h9, rm, h10,
    md, h11, sel, h12, h13⟩ := h
  have e1 : cfg.can_use_sysdig_capture = c1 := Value.bool.inj (Get_inv _ _ _ h1 (by simp)).2
  have e2 : cfg.can_see_infrastructure_events = c2 := Value.bool.inj (Get_inv _ _ _ h2 (by simp)).2
  have e3 : cfg.can_use_aws_data = c3 := Value.bool.inj (Get_inv _ _ _ h3 (by simp)).2
  have e4 : cfg.theme = th := Value.str.inj (Get_inv _ _ _ h4 (by simp)).2
  have e5 : cfg.name = nm := Value.str.inj (Get_inv _ _ _ h5 (by simp)).2
  have e6 : cfg.description = ds := Value.str.inj (Get_inv _ _ _ h6 (by simp)).2
  have e7 : cfg.scope_by = sc := Value.str.inj (Get_inv _ _ _ h7 (by simp)).2
  have e8 : cfg.filter = fl := Value.str.inj (Get_inv _ _ _ h8 (by simp)).2
  have e9 : cfg.default_team = dt := Value.bool.inj (Get_inv _ _ _ h9 (by simp)).2
  have e10 : setList cfg.setHash cfg.user_roles = rm :=
    Value.roles.inj (Get_inv _ _ _ h10 (by simp)).2
  have hep := Get_inv _ _ _ h11 (by simp)
  have e11 : epType cfg = md := Value.str.inj hep.2
  have e12 : sel = epSelection cfg := selection_inv cfg sel hep.1 h12
  subst e1 e2 e3 e4 e5 e6 e7 e8 e9 e10 e11 e12
  rw [foldl_append_singleton] at h13
  by_cases hv : v = ClientType.IBMMonitor
  · rw [if_pos hv, teamFromResourceDataIBM_eq] at h13
    simp only [Option.bind_eq_some, asBool_eq_some] at h13
    obtain ⟨b, hb, h14⟩ := h13
    have eb : cfg.enable_ibm_platform_metrics = b := Value.bool.inj (Get_inv _ _ _ hb (by simp)).2
    subst eb
    unfold ResourceData.GetOk at h14
    by_cases hdecl : cfg.declares "ibm_platform_metrics" = true
    · have hg : cfg.Get "ibm_platform_metrics" = .str cfg.ibm_platform_metrics := by
        show (if cfg.declares "ibm_platform_metrics" = true then _ else _) = _
        rw [if_pos hdecl]
        rfl
      rw [hg] at h14
      by_cases hz : cfg.ibm_platform_metrics = ""
      · have hz2 : (!(Value.str cfg.ibm_platform_metrics).isZero) = false := by
          simp [Value.isZero, hz]
        rw [hz2] at h14
        rw [← Option.some.inj h14]
        simp [teamOf, hv, hz]
      · have hz2 : (!(Value.str cfg.ibm_platform_metrics).isZero) = true := by
          simp [Value.isZero, hz]
        rw [hz2] at h14
        rw [← Option.some.inj h14]
        simp [teamOf, hv, hz, hdecl, updateNamespaceFilters]
    · have hg : cfg.Get "ibm_platform_metrics" = .nil := by
        show (if cfg.declares "ibm_platform_metrics" = true then _ else _) = _
        rw [if_neg hdecl]
      rw [hg] at h14
      rw [← Option.some.inj h14]
      simp [teamOf, hv, hdecl]
  · rw [if_neg hv] at h13
    have := (Option.some.inj h13).symm
    rw [this]
    simp [teamOf, hv]


theorem self_single (cfg d1 : ResourceData) (key : String) (val : Value)
    (h1 : d1.stored key = val) (hc : cfg.stored key = val)
    (honly : ∀ k ∈ readKeys, topKey k = key → k = key) :
    ∀ k ∈ readKeys, topKey k = key → d1.stored k = cfg.stored k := by
  intro k hk htk
  rw [honly k hk htk, h1, hc]

theorem userMonitorRolesToSet_foldl (l : List UserRoles) (init : List RoleMap) :
    l.foldl (fun res role =>
        if role.Admin then res else res ++ [({ email := role.Email, role := role.Role } : RoleMap)])
      init
      = init ++ (l.filter (fun r => !r.Admin)).map (fun r => { email := r.Email, role := r.Role }) := by
  induction l generalizing init with
  | nil => simp
  | cons x xs ih =>
    rw [List.foldl_cons, ih]
    cases hx : x.Admin <;> simp [hx]

theorem userMonitorRolesToSet_eq (userRoles : List UserRoles) :
    userMonitorRolesToSet userRoles
      = (userRoles.filter (fun r => !r.Admin)).map (fun r => { email := r.Email, role := r.Role }) := by
  simpa [userMonitorRolesToSet] using userMonitorRolesToSet_foldl userRoles []

theorem userMonitorRolesToSet_teamOf (l : List RoleMap) :
    userMonitorRolesToSet
      (l.map (fun ur => ({ Email := ur.email, Role := ur.role, Admin := false } : UserRoles))) = l := by
  rw [userMonitorRolesToSet_eq]
  induction l with
  | nil => rfl
  | cons x xs ih => simpa using ih

theorem self_none (cfg d1 : ResourceData) (key : String)
    (honly : ∀ k ∈ readKeys, topKey k = key → False) :
    ∀ k ∈ readKeys, topKey k = key → d1.stored k = cfg.stored k :=
  fun k hk htk => (honly k hk htk).elim

theorem self_entrypoint (cfg d1 : ResourceData) (m s : String)
    (h1 : d1.stored "entrypoint.0.type" = .str m)
    (c1 : cfg.stored "entrypoint.0.type" = .str m)
    (h2 : d1.stored "entrypoint.0.selection" = .str s)
    (c2 : cfg.stored "entrypoint.0.selection" = .str s) :
    ∀ k ∈ readKeys, topKey k = "entrypoint" → d1.stored k = cfg.stored k := by
  intro k hk htk
  have hcases : ∀ k ∈ readKeys, topKey k = "entrypoint" →
      k = "entrypoint.0.type" ∨ k = "entrypoint.0.selection" := by decide
  rcases hcases k hk htk with rfl | rfl
  · rw [h1, c1]
  · rw [h2, c2]

theorem readIBM_agrees (cfg d : ResourceData) (hd : Agrees cfg d) :
    Agrees cfg (resourceSysdigMonitorTeamReadIBM d (teamOf cfg ClientType.IBMMonitor)).2 := by
  unfold resourceSysdigMonitorTeamReadIBM
  have b1 := setStep_agrees cfg (none, d) "enable_ibm_platform_metrics"
    (.ofBoolPtr (teamOf cfg ClientType.IBMMonitor).CanUseBeaconMetrics) hd
    (fun d1 _ hw => self_single cfg d1 "enable_ibm_platform_metrics"
      (.bool cfg.enable_ibm_platform_metrics) (by rw [← Option.some.inj hw]; rfl) rfl (by decide))
  refine setStep_agrees cfg _ "ibm_platform_metrics" _ b1 ?_
  intro d1 hcd hw
  refine self_single cfg d1 "ibm_platform_metrics" (.str cfg.ibm_platform_metrics) ?_ rfl
    (by decide)
  by_cases hz : cfg.ibm_platform_metrics = ""
  · have hn : (teamOf cfg ClientType.IBMMonitor).NamespaceFilters = none := by
      simp [teamOf, hz]
    rw [hn] at hw
    rw [← Option.some.inj hw, hz]
    rfl
  · have hn : (teamOf cfg ClientType.IBMMonitor).NamespaceFilters
        = some { IBMPlatformMetrics := some cfg.ibm_platform_metrics } := by
      simp [teamOf, hz, hcd]
    rw [hn] at hw
    rw [← Option.some.inj hw]
    rfl

theorem step_version (cfg : ResourceData) (v : ClientType) (r : Option String × ResourceData)
    (hr : Agrees cfg r.2) :
    Agrees cfg (setStep r "version" (.int (teamOf cfg v).Version)).2 :=
  setStep_agrees cfg r "version" _ hr (fun d1 _ _ => self_none cfg d1 "version" (by decide))

theorem step_theme (cfg : ResourceData) (v : ClientType) (r : Option String × ResourceData)
    (hr : Agrees cfg r.2) :
    Agrees cfg (setStep r "theme" (.str (teamOf cfg v).Theme)).2 :=
  setStep_agrees cfg r "theme" _ hr
    (fun d1 _ hw => self_single cfg d1 "theme" (.str cfg.theme)
      (by rw [← Option.some.inj hw]; rfl) rfl (by decide))

theorem step_name (cfg : ResourceData) (v : ClientType) (r : Option String × ResourceData)
    (hr : Agrees cfg r.2) :
    Agrees cfg (setStep r "name" (.str (teamOf cfg v).Name)).2 :=
  setStep_agrees cfg r "name" _ hr
    (fun d1 _ hw => self_single cfg d1 "name" (.str cfg.name)
      (by rw [← Option.some.inj hw]; rfl) rfl (by decide))

theorem step_description (cfg : ResourceData) (v : ClientType) (r : Option String × ResourceData)
    (hr : Agrees cfg r.2) :
    Agrees cfg (setStep r "description" (.str (teamOf cfg v).Description)).2 :=
  setStep_agrees cfg r "description" _ hr
    (fun d1 _ hw => self_single cfg d1 "description" (.str cfg.description)
      (by rw [← Option.some.inj hw]; rfl) rfl (by decide))

theorem step_scope_by (cfg : ResourceData) (v : ClientType) (r : Option String × ResourceData)
    (hr : Agrees cfg r.2) :
    Agrees cfg (setStep r "scope_by" (.str (teamOf cfg v).Show)).2 :=
  setStep_agrees cfg r "scope_by" _ hr
    (fun d1 _ hw => self_single cfg d1 "scope_by" (.str cfg.scope_by)
      (by rw [← Option.some.inj hw]; rfl) rfl (by decide))

theorem step_filter (cfg : ResourceData) (v : ClientType) (r : Option String × ResourceData)
    (hr : Agrees cfg r.2) :
    Agrees cfg (setStep r "filter" (.str (teamOf cfg v).Filter)).2 :=
  setStep_agrees cfg r "filter" _ hr
    (fun d1 _ hw => self_single cfg d1 "filter" (.str cfg.filter)
      (by rw [← Option.some.inj hw]; rfl) rfl (by decide))

theorem step_can_use_sysdig_capture (cfg : ResourceData) (v : ClientType)
    (r : Option String × ResourceData) (hr : Agrees cfg r.2) :
    Agrees cfg (setStep r "can_use_sysdig_capture" (.ofBoolPtr (teamOf cfg v).CanUseSysdigCapture)).2 :=
  setStep_agrees cfg r "can_use_sysdig_capture" _ hr
    (fun d1 _ hw => self_single cfg d1 "can_use_sysdig_capture" (.bool cfg.can_use_sysdig_capture)
      (by rw [← Option.some.inj hw]; rfl) rfl (by decide))

theorem step_can_see_infrastructure_events (cfg : ResourceData) (v : ClientType)
    (r : Option String × ResourceData) (hr : Agrees cfg r.2) :
    Agrees cfg (setStep r "can_see_infrastructure_events" (.ofBoolPtr (teamOf cfg v).CanUseCustomEvents)).2 :=
  setStep_agrees cfg r "can_see_infrastructure_events" _ hr
    (fun d1 _ hw => self_single cfg d1 "can_see_infrastructure_events" (.bool cfg.can_see_infrastructure_events)
      (by rw [← Option.some.inj hw]; rfl) rfl (by decide))

theorem step_can_use_aws_data (cfg : ResourceData) (v : ClientType)
    (r : Option String × ResourceData) (hr : Agrees cfg r.2) :
    Agrees cfg (setStep r "can_use_aws_data" (.ofBoolPtr (teamOf cfg v).CanUseAwsMetrics)).2 :=
  setStep_agrees cfg r "can_use_aws_data" _ hr
    (fun d1 _ hw => self_single cfg d1 "can_use_aws_data" (.bool cfg.can_use_aws_data)
      (by rw [← Option.some.inj hw]; rfl) rfl (by decide))

theorem step_default_team (cfg : ResourceData) (v : ClientType)
    (r : Option String × ResourceData) (hr : Agrees cfg r.2) :
    Agrees cfg (setStep r "default_team" (.bool (teamOf cfg v).DefaultTeam)).2 :=
  setStep_agrees cfg r "default_team" _ hr
    (fun d1 _ hw => self_single cfg d1 "default_team" (.bool cfg.default_team)
      (by rw [← Option.some.inj hw]; rfl) rfl (by decide))

theorem step_user_roles (cfg : ResourceData) (v : ClientType)
    (r : Option String × ResourceData) (hr : Agrees cfg r.2) :
    Agrees cfg
      (setStep r "user_roles" (.roles (userMonitorRolesToSet (teamOf cfg v).UserRoles))).2 :=
  setStep_agrees cfg r "user_roles" _ hr
    (fun d1 _ hw => self_single cfg d1 "user_roles"
      (.roles (setList cfg.setHash cfg.user_roles))
      (by
        rw [← Option.some.inj hw]
        show Value.roles (setList r.2.setHash (userMonitorRolesToSet
          ((setList cfg.setHash cfg.user_roles).map _))) = _
        rw [hr.2.1, userMonitorRolesToSet_teamOf, setList_idem])
      rfl (by decide))

theorem step_entrypoint (cfg : ResourceData) (v : ClientType)
    (r : Option String × ResourceData) (hr : Agrees cfg r.2) :
    Agrees cfg
      (setStep r "entrypoint" (.entrypoints (entrypointToSet (teamOf cfg v).EntryPoint))).2 :=
  setStep_agrees cfg r "entrypoint" _ hr
    (fun d1 _ hw => self_entrypoint cfg d1 (epType cfg) (epSelection cfg)
      (by rw [← Option.some.inj hw]; rfl) rfl (by rw [← Option.some.inj hw]; rfl) rfl)

theorem steps_agree (cfg : ResourceData) (v : ClientType) :
    Agrees cfg
      (setStep (setStep (setStep (setStep (setStep (setStep (setStep (setStep (setStep (setStep
        (setStep (setStep (none, cfg.SetId (Itoa (teamOf cfg v).ID))
          "version" (.int (teamOf cfg v).Version))
          "theme" (.str (teamOf cfg v).Theme))
          "name" (.str (teamOf cfg v).Name))
          "description" (.str (teamOf cfg v).Description))
          "scope_by" (.str (teamOf cfg v).Show))
          "filter" (.str (teamOf cfg v).Filter))
          "can_use_sysdig_capture" (.ofBoolPtr (teamOf cfg v).CanUseSysdigCapture))
          "can_see_infrastructure_events" (.ofBoolPtr (teamOf cfg v).CanUseCustomEvents))
          "can_use_aws_data" (.ofBoolPtr (teamOf cfg v).CanUseAwsMetrics))
          "default_team" (.bool (teamOf cfg v).DefaultTeam))
          "user_roles" (.roles (userMonitorRolesToSet (teamOf cfg v).UserRoles)))
          "entrypoint" (.entrypoints (entrypointToSet (teamOf cfg v).EntryPoint))).2 :=
  step_entrypoint cfg v _ (step_user_roles cfg v _ (step_default_team cfg v _
    (step_can_use_aws_data cfg v _ (step_can_see_infrastructure_events cfg v _
    (step_can_use_sysdig_capture cfg v _ (step_filter cfg v _ (step_scope_by cfg v _
    (step_description cfg v _ (step_name cfg v _ (step_theme cfg v _
    (step_version cfg v _ (agrees_refl cfg))))))))))))

theorem mapper_agrees {σ : Type} (cfg : ResourceData) (clients : SysdigClients σ) :
    Agrees cfg
      (teamMonitorToResourceData cfg clients (teamOf cfg clients.GetClientType)).2 := by
  have a12 := steps_agree cfg clients.GetClientType
  unfold teamMonitorToResourceData
  simp only []
  split
  · exact a12
  · split
    · rename_i hv
      rw [hv] at a12 ⊢
      exact readIBM_agrees cfg _ a12
    · exact a12

theorem setStep_cases (r : Option String × ResourceData) (k : String) (v : Value) :
    (∃ err, setStep r k v = (some err, r.2)) ∨
      (∃ d1, r.1 = none ∧ r.2.declares k = true ∧ r.2.write k v = some d1 ∧
        setStep r k v = (none, d1)) := by
  rcases r with ⟨e, d⟩
  cases e with
  | some e => exact Or.inl ⟨e, rfl⟩
  | none =>
    by_cases hd : d.declares k = true
    · cases hw : d.write k v with
      | none =>
        have hs : d.Set k v = .error ("Invalid value for: " ++ k) := by
          unfold ResourceData.Set; rw [if_pos hd, hw]
        refine Or.inl ⟨"Invalid value for: " ++ k, ?_⟩
        show (match d.Set k v with
          | .error err => (some err, d)
          | .ok d1 => (none, d1)) = _
        rw [hs]
      | some d1 =>
        have hs : d.Set k v = .ok d1 := by
          unfold ResourceData.Set; rw [if_pos hd, hw]
        refine Or.inr ⟨d1, rfl, hd, rfl, ?_⟩
        show (match d.Set k v with
          | .error err => (some err, d)
          | .ok d1 => (none, d1)) = _
        rw [hs]
    · have hs : d.Set k v = .error ("Invalid address to set: " ++ k) := by
        unfold ResourceData.Set; rw [if_neg hd]
      refine Or.inl ⟨"Invalid address to set: " ++ k, ?_⟩
      show (match d.Set k v with
        | .error err => (some err, d)
        | .ok d1 => (none, d1)) = _
      rw [hs]

theorem setStep_schema (r : Option String × ResourceData) (k : String) (v : Value) :
    (setStep r k v).2.schema = r.2.schema := by
  rcases setStep_cases r k v with ⟨e, h⟩ | ⟨d1, -, -, hw, h⟩
  · rw [h]
  · rw [h]; exact (write_frame r.2 d1 k v hw).1

theorem setStep_id (r : Option String × ResourceData) (k : String) (v : Value) :
    (setStep r k v).2.id = r.2.id := by
  rcases setStep_cases r k v with ⟨e, h⟩ | ⟨d1, -, -, hw, h⟩
  · rw [h]
  · rw [h]; exact (write_frame r.2 d1 k v hw).2.2.1

theorem setStep_stored (r : Option String × ResourceData) (k : String) (v : Value)
    (a : String) (ha : a ∈ allKeys) (hne : topKey a ≠ k) :
    (setStep r k v).2.stored a = r.2.stored a := by
  rcases setStep_cases r k v with ⟨e, h⟩ | ⟨d1, -, -, hw, h⟩
  · rw [h]
  · rw [h]; exact (write_frame r.2 d1 k v hw).2.2.2 a ha hne

theorem setStep_ok (r : Option String × ResourceData) (k : String) (v : Value)
    (h : (setStep r k v).1 = none) :
    r.1 = none ∧ r.2.declares k = true ∧ ∃ d1, r.2.write k v = some d1 ∧ (setStep r k v).2 = d1 := by
  rcases setStep_cases r k v with ⟨e, h1⟩ | ⟨d1, h0, hd, hw, h1⟩
  · rw [h1] at h; exact absurd h (by simp)
  · exact ⟨h0, hd, d1, hw, by rw [h1]⟩

theorem declares_of_schema (d d1 : ResourceData) (h : d1.schema = d.schema) (k : String) :
    d1.declares k = d.declares k := by
  unfold ResourceData.declares
  rw [h]

theorem mapper_unfold {σ : Type} (d : ResourceData) (clients : SysdigClients σ) (t : Team) :
    teamMonitorToResourceData d clients t =
      (match (commonWrites d t).1 with
        | some _ => commonWrites d t
        | none =>
          if clients.GetClientType = ClientType.IBMMonitor then
            resourceSysdigMonitorTeamReadIBM (commonWrites d t).2 t
          else (none, (commonWrites d t).2)) := rfl

theorem commonWrites_id (d : ResourceData) (t : Team) : (commonWrites d t).2.id = Itoa t.ID := by
  simp only [commonWrites, setStep_id]
  rfl

theorem commonWrites_schema (d : ResourceData) (t : Team) :
    (commonWrites d t).2.schema = d.schema := by
  simp only [commonWrites, setStep_schema]
  rfl

theorem readIBM_id (d : ResourceData) (t : Team) :
    (resourceSysdigMonitorTeamReadIBM d t).2.id = d.id := by
  simp only [resourceSysdigMonitorTeamReadIBM, setStep_id]

theorem readIBM_schema (d : ResourceData) (t : Team) :
    (resourceSysdigMonitorTeamReadIBM d t).2.schema = d.schema := by
  simp only [resourceSysdigMonitorTeamReadIBM, setStep_schema]

theorem readIBM_version (d : ResourceData) (t : Team) :
    (resourceSysdigMonitorTeamReadIBM d t).2.stored "version" = d.stored "version" := by
  simp only [resourceSysdigMonitorTeamReadIBM]
  rw [setStep_stored _ _ _ "version" (by decide) (by decide),
    setStep_stored _ _ _ "version" (by decide) (by decide)]

theorem readIBM_ok (d : ResourceData) (t : Team)
    (h : (resourceSysdigMonitorTeamReadIBM d t).1 = none) :
    d.declares "enable_ibm_platform_metrics" = true := by
  simp only [resourceSysdigMonitorTeamReadIBM] at h
  exact (setStep_ok _ _ _ (setStep_ok _ _ _ h).1).2.1

theorem mapper_id {σ : Type} (d : ResourceData) (clients : SysdigClients σ) (t : Team) :
    (teamMonitorToResourceData d clients t).2.id = Itoa t.ID := by
  rw [mapper_unfold]
  split
  · exact commonWrites_id d t
  · split
    · rw [readIBM_id]; exact commonWrites_id d t
    · exact commonWrites_id d t

theorem mapper_schema {σ : Type} (d : ResourceData) (clients : SysdigClients σ) (t : Team) :
    (teamMonitorToResourceData d clients t).2.schema = d.schema := by
  rw [mapper_unfold]
  split
  · exact commonWrites_schema d t
  · split
    · rw [readIBM_schema]; exact commonWrites_schema d t
    · exact commonWrites_schema d t

theorem commonWrites_ok (d : ResourceData) (t : Team) (h : (commonWrites d t).1 = none) :
    DeclaresCommon d ∧ d.declares "version" = true ∧
      (commonWrites d t).2.stored "version" = .int t.Version := by
  have hv : (commonWrites d t).2.stored "version"
      = (setStep (none, d.SetId (Itoa t.ID)) "version" (.int t.Version)).2.stored "version" := by
    simp only [commonWrites]
    rw [setStep_stored _ _ _ "version" (by decide) (by decide),
      setStep_stored _ _ _ "version" (by decide) (by decide),
      setStep_stored _ _ _ "version" (by decide) (by decide),
      setStep_stored _ _ _ "version" (by decide) (by decide),
      setStep_stored _ _ _ "version" (by decide) (by decide),
      setStep_stored _ _ _ "version" (by decide) (by decide),
      setStep_stored _ _ _ "version" (by decide) (by decide),
      setStep_stored _ _ _ "version" (by decide) (by decide),
      setStep_stored _ _ _ "version" (by decide) (by decide),
      setStep_stored _ _ _ "version" (by decide) (by decide),
      setStep_stored _ _ _ "version" (by decide) (by decide)]
  unfold commonWrites at h
  have h12 := setStep_ok _ _ _ h
  have h11 := setStep_ok _ _ _ h12.1
  have h10 := setStep_ok _ _ _ h11.1
  have h9 := setStep_ok _ _ _ h10.1
  have h8 := setStep_ok _ _ _ h9.1
  have h7 := setStep_ok _ _ _ h8.1
  have h6 := setStep_ok _ _ _ h7.1
  have h5 := setStep_ok _ _ _ h6.1
  have h4 := setStep_ok _ _ _ h5.1
  have h3 := setStep_ok _ _ _ h4.1
  have h2 := setStep_ok _ _ _ h3.1
  have h1 := setStep_ok _ _ _ h2.1
  have e12 := h12.2.1
  have e11 := h11.2.1
  have e10 := h10.2.1
  have e9 := h9.2.1
  have e8 := h8.2.1
  have e7 := h7.2.1
  have e6 := h6.2.1
  have e5 := h5.2.1
  have e4 := h4.2.1
  have e3 := h3.2.1
  have e2 := h2.2.1
  have e1 : d.declares "version" = true := h1.2.1
  rw [declares_of_schema d _ (by simp only [setStep_schema]; rfl)] at e2 e3 e4 e5 e6 e7 e8 e9 e10 e11 e12
  refine ⟨⟨e7, e8, e9, e2, e3, e4, e5, e6, e10, e11, e12⟩, e1, ?_⟩
  rw [hv]
  obtain ⟨d1, hw, hd1⟩ := h1.2.2
  rw [hd1, ← Option.some.inj hw]
  rfl

theorem mapper_ok {σ : Type} (d : ResourceData) (clients : SysdigClients σ) (t : Team)
    (h : (teamMonitorToResourceData d clients t).1 = none) :
    DeclaresCommon d ∧ d.declares "version" = true ∧
      (teamMonitorToResourceData d clients t).2.stored "version" = .int t.Version ∧
      (clients.GetClientType = ClientType.IBMMonitor →
        d.declares "enable_ibm_platform_metrics" = true) := by
  rw [mapper_unfold] at h ⊢
  cases hc : (commonWrites d t).1 with
  | some e =>
    rw [hc] at h
    simp only [] at h
    rw [hc] at h
    exact absurd h (by simp)
  | none =>
    obtain ⟨c1, c2, c3⟩ := commonWrites_ok d t hc
    rw [hc] at h
    simp only [] at h ⊢
    by_cases hv : clients.GetClientType = ClientType.IBMMonitor
    · rw [if_pos hv] at h ⊢
      refine ⟨c1, c2, ?_, fun _ => ?_⟩
      · rw [readIBM_version]; exact c3
      · have := readIBM_ok _ _ h
        rwa [declares_of_schema d _ (commonWrites_schema d t)] at this
    · rw [if_neg hv]
      exact ⟨c1, c2, c3, fun h => absurd h hv⟩

theorem Get_of_declared (d : ResourceData) (k : String) (h : d.declares (topKey k) = true) :
    d.Get k = d.stored k := by
  unfold ResourceData.Get
  rw [if_pos h]

theorem selection_of_declared (d : ResourceData) (h : d.declares "entrypoint" = true) :
    entrypointSelection d = some (epSelection d) := by
  have hg : d.Get "entrypoint.0.selection" = .str (epSelection d) :=
    Get_of_declared d "entrypoint.0.selection" h
  unfold entrypointSelection ResourceData.GetOk
  rw [hg]
  cases hz : (!(Value.str (epSelection d)).isZero) with
  | true => rfl
  | false =>
    have h2 : epSelection d = "" := by simpa [Value.isZero] using hz
    show some "" = some (epSelection d)
    rw [h2]

theorem teamFromResourceDataIBM_of_declared (d : ResourceData) (t : Team)
    (h : d.declares "enable_ibm_platform_metrics" = true) :
    teamFromResourceDataIBM d t = some
      { t with
        CanUseBeaconMetrics := some d.enable_ibm_platform_metrics
        NamespaceFilters :=
          if d.declares "ibm_platform_metrics" = true ∧ d.ibm_platform_metrics ≠ "" then
            updateNamespaceFilters t.NamespaceFilters
              { IBMPlatformMetrics := some d.ibm_platform_metrics }
          else t.NamespaceFilters } := by
  rw [teamFromResourceDataIBM_eq, Get_of_declared d "enable_ibm_platform_metrics" h]
  show (match d.GetOk "ibm_platform_metrics" with
    | (v, true) => v.asString.bind fun metrics =>
        some { t with CanUseBeaconMetrics := some d.enable_ibm_platform_metrics, NamespaceFilters :=
          updateNamespaceFilters t.NamespaceFilters { IBMPlatformMetrics := some metrics } }
    | (_, false) => some { t with CanUseBeaconMetrics := some d.enable_ibm_platform_metrics }) = _
  unfold ResourceData.GetOk
  by_cases hdecl : d.declares "ibm_platform_metrics" = true
  · rw [Get_of_declared d "ibm_platform_metrics" hdecl]
    show (match (Value.str d.ibm_platform_metrics, !(Value.str d.ibm_platform_metrics).isZero) with
      | (v, true) => v.asString.bind fun metrics =>
        some { t with CanUseBeaconMetrics := some d.enable_ibm_platform_metrics, NamespaceFilters :=
          updateNamespaceFilters t.NamespaceFilters { IBMPlatformMetrics := some metrics } }
      | (_, false) => some { t with CanUseBeaconMetrics := some d.enable_ibm_platform_metrics }) = _
    by_cases hz : d.ibm_platform_metrics = ""
    · have hz2 : (!(Value.str d.ibm_platform_metrics).isZero) = false := by
        simp [Value.isZero, hz]
      rw [hz2]
      simp [hz]
    · have hz2 : (!(Value.str d.ibm_platform_metrics).isZero) = true := by
        simp [Value.isZero, hz]
      rw [hz2]
      simp [hz, hdecl, Value.asString]
  · have hg : d.Get "ibm_platform_metrics" = .nil := by
      show (if d.declares "ibm_platform_metrics" = true then _ else _) = _
      rw [if_neg hdecl]
    rw [hg]
    simp [hdecl]
    rfl

theorem teamFromResourceData_of_declared (d : ResourceData) (v : ClientType)
    (h : DeclaresCommon d)
    (hibm : v = ClientType.IBMMonitor → d.declares "enable_ibm_platform_metrics" = true) :
    teamFromResourceData d v = some (teamOf d v) := by
  obtain ⟨h1, h2, h3, h4, h5, h6, h7, h8, h9, h10, h11⟩ := h
  rw [teamFromResourceData_eq, selection_of_declared d h11,
    Get_of_declared d "can_use_sysdig_capture" h1,
    Get_of_declared d "can_see_infrastructure_events" h2,
    Get_of_declared d "can_use_aws_data" h3,
    Get_of_declared d "theme" h4,
    Get_of_declared d "name" h5,
    Get_of_declared d "description" h6,
    Get_of_declared d "scope_by" h7,
    Get_of_declared d "filter" h8,
    Get_of_declared d "default_team" h9,
    Get_of_declared d "user_roles" h10,
    Get_of_declared d "entrypoint.0.type" h11]
  by_cases hv : v = ClientType.IBMMonitor
  · show (if v = ClientType.IBMMonitor then teamFromResourceDataIBM d _ else _) = _
    rw [if_pos hv, teamFromResourceDataIBM_of_declared d _ (hibm hv), foldl_append_singleton]
    simp [teamOf, hv, updateNamespaceFilters]
  · show (if v = ClientType.IBMMonitor then _ else some _) = _
    rw [if_neg hv, foldl_append_singleton]
    simp [teamOf, hv]

theorem entrypointSelection_congr (cfg d : ResourceData) (h : Agrees cfg d) :
    entrypointSelection d = entrypointSelection cfg := by
  unfold entrypointSelection ResourceData.GetOk
  rw [Get_eq_of_agrees cfg d h "entrypoint.0.selection" (by decide)]

theorem teamFromResourceDataIBM_congr (cfg d : ResourceData) (h : Agrees cfg d) (t : Team) :
    teamFromResourceDataIBM d t = teamFromResourceDataIBM cfg t := by
  rw [teamFromResourceDataIBM_eq, teamFromResourceDataIBM_eq]
  unfold ResourceData.GetOk
  rw [Get_eq_of_agrees cfg d h "enable_ibm_platform_metrics" (by decide),
    Get_eq_of_agrees cfg d h "ibm_platform_metrics" (by decide)]

theorem teamFromResourceData_congr (cfg d : ResourceData) (v : ClientType) (h : Agrees cfg d) :
    teamFromResourceData d v = teamFromResourceData cfg v := by
  rw [teamFromResourceData_eq, teamFromResourceData_eq, entrypointSelection_congr cfg d h,
    Get_eq_of_agrees cfg d h "can_use_sysdig_capture" (by decide),
    Get_eq_of_agrees cfg d h "can_see_infrastructure_events" (by decide),
    Get_eq_of_agrees cfg d h "can_use_aws_data" (by decide),
    Get_eq_of_agrees cfg d h "theme" (by decide),
    Get_eq_of_agrees cfg d h "name" (by decide),
    Get_eq_of_agrees cfg d h "description" (by decide),
    Get_eq_of_agrees cfg d h "scope_by" (by decide),
    Get_eq_of_agrees cfg d h "filter" (by decide),
    Get_eq_of_agrees cfg d h "default_team" (by decide),
    Get_eq_of_agrees cfg d h "user_roles" (by decide),
    Get_eq_of_agrees cfg d h "entrypoint.0.type" (by decide)]
  simp only [teamFromResourceDataIBM_congr cfg d h]

theorem read_unfold {σ : Type} (clients : SysdigClients σ) (client : TeamInterface σ)
    (st : State σ) (hclient : getMonitorTeamClient clients = .ok client) :
    resourceSysdigMonitorTeamRead clients st =
      (match client.GetTeamById st.server (Atoi st.d.Id).1 with
        | (res, server) =>
          match res with
          | .error err =>
            (FromErr err, { d := st.d.SetId "", server := server,
                            calls := st.calls ++ [Call.GetTeamById (Atoi st.d.Id).1] })
          | .ok t =>
            match teamMonitorToResourceData st.d clients t with
            | (some err, d) =>
              (FromErr err, { d := d.SetId "", server := server,
                              calls := st.calls ++ [Call.GetTeamById (Atoi st.d.Id).1] })
            | (none, d) =>
              ([], { d := d, server := server,
                     calls := st.calls ++ [Call.GetTeamById (Atoi st.d.Id).1] })) := by
  unfold resourceSysdigMonitorTeamRead
  rw [hclient]

theorem read_of_get_error {σ : Type} (clients : SysdigClients σ) (client : TeamInterface σ)
    (st : State σ) (err : String) (s : σ)
    (hclient : getMonitorTeamClient clients = .ok client)
    (hget : client.GetTeamById st.server (Atoi st.d.Id).1 = (.error err, s)) :
    resourceSysdigMonitorTeamRead clients st =
      (FromErr err, { d := st.d.SetId "", server := s,
                      calls := st.calls ++ [Call.GetTeamById (Atoi st.d.Id).1] }) := by
  rw [read_unfold clients client st hclient, hget]

theorem read_of_write_error {σ : Type} (clients : SysdigClients σ) (client : TeamInterface σ)
    (st : State σ) (t : Team) (err : String) (s : σ) (d : ResourceData)
    (hclient : getMonitorTeamClient clients = .ok client)
    (hget : client.GetTeamById st.server (Atoi st.d.Id).1 = (.ok t, s))
    (hwrite : teamMonitorToResourceData st.d clients t = (some err, d)) :
    resourceSysdigMonitorTeamRead clients st =
      (FromErr err, { d := d.SetId "", server := s,
                      calls := st.calls ++ [Call.GetTeamById (Atoi st.d.Id).1] }) := by
  rw [read_unfold clients client st hclient, hget]
  simp only []
  rw [hwrite]

theorem read_of_success {σ : Type} (clients : SysdigClients σ) (client : TeamInterface σ)
    (st : State σ) (t : Team) (s : σ) (d : ResourceData)
    (hclient : getMonitorTeamClient clients = .ok client)
    (hget : client.GetTeamById st.server (Atoi st.d.Id).1 = (.ok t, s))
    (hwrite : teamMonitorToResourceData st.d clients t = (none, d)) :
    resourceSysdigMonitorTeamRead clients st =
      ([], { d := d, server := s,
             calls := st.calls ++ [Call.GetTeamById (Atoi st.d.Id).1] }) := by
  rw [read_unfold clients client st hclient, hget]
  simp only []
  rw [hwrite]

theorem read_calls {σ : Type} (clients : SysdigClients σ) (client : TeamInterface σ)
    (st : State σ) (hclient : getMonitorTeamClient clients = .ok client) :
    (resourceSysdigMonitorTeamRead clients st).2.calls
      = st.calls ++ [Call.GetTeamById (Atoi st.d.Id).1] := by
  rcases hget : client.GetTeamById st.server (Atoi st.d.Id).1 with ⟨res, s⟩
  cases res with
  | error err => rw [read_of_get_error clients client st err s hclient hget]
  | ok t =>
    rcases hwrite : teamMonitorToResourceData st.d clients t with ⟨e, d⟩
    cases e with
    | some err => rw [read_of_write_error clients client st t err s d hclient hget hwrite]
    | none => rw [read_of_success clients client st t s d hclient hget hwrite]

theorem create_unfold {σ : Type} (clients : SysdigClients σ) (client : TeamInterface σ)
    (st : State σ) (team0 : Team)
    (hclient : getMonitorTeamClient clients = .ok client)
    (hteam : teamFromResourceData st.d clients.GetClientType = some team0) :
    resourceSysdigMonitorTeamCreate clients st =
      (match client.CreateTeam st.server (createArg team0) with
        | (res, server) =>
          match res with
          | .error err =>
            some (FromErr err,
              { d := st.d, server := server, calls := st.calls ++ [Call.CreateTeam (createArg team0)] })
          | .ok team =>
            match resourceSysdigMonitorTeamRead clients
              { d := st.d.SetId (Itoa team.ID), server := server,
                calls := st.calls ++ [Call.CreateTeam (createArg team0)] } with
            | (_, st1) => some ([], st1)) := by
  unfold resourceSysdigMonitorTeamCreate
  rw [hclient, hteam]
  rfl

theorem update_unfold {σ : Type} (clients : SysdigClients σ) (client : TeamInterface σ)
    (st : State σ) (t0 : Team) (version : Int)
    (hclient : getMonitorTeamClient clients = .ok client)
    (hteam : teamFromResourceData st.d clients.GetClientType = some t0)
    (hversion : (st.d.Get "version").asInt = some version) :
    resourceSysdigMonitorTeamUpdate clients st =
      (match client.UpdateTeam st.server (updateArg t0 version (Atoi st.d.Id).1) with
        | (res, server) =>
          match res with
          | .error err =>
            some (FromErr err,
              { d := st.d, server := server,
                calls := st.calls ++ [Call.UpdateTeam (updateArg t0 version (Atoi st.d.Id).1)] })
          | .ok _ =>
            match resourceSysdigMonitorTeamRead clients
              { d := st.d, server := server,
                calls := st.calls ++ [Call.UpdateTeam (updateArg t0 version (Atoi st.d.Id).1)] } with
            | (_, st1) => some ([], st1)) := by
  unfold resourceSysdigMonitorTeamUpdate
  rw [hclient, hteam, hversion]
  rfl

theorem delete_calls {σ : Type} (clients : SysdigClients σ) (client : TeamInterface σ)
    (st : State σ) (hclient : getMonitorTeamClient clients = .ok client) :
    (resourceSysdigMonitorTeamDelete clients st).2.calls
      = st.calls ++ [Call.DeleteTeam (Atoi st.d.Id).1] := by
  unfold resourceSysdigMonitorTeamDelete
  rw [hclient]
  show (match client.DeleteTeam st.server (Atoi st.d.Id).1 with
    | (res, server) =>
      match res with
      | some err =>
        ((FromErr err,
          { d := st.d, server := server,
            calls := st.calls ++ [Call.DeleteTeam (Atoi st.d.Id).1] }) : Diagnostics × State σ)
      | none =>
        ([], { d := st.d, server := server,
               calls := st.calls ++ [Call.DeleteTeam (Atoi st.d.Id).1] })).2.calls = _
  rcases client.DeleteTeam st.server (Atoi st.d.Id).1 with ⟨res, s⟩
  cases res <;> rfl

/-- C1: `userMonitorRolesToSet` returns exactly the entries whose Admin flag is false, in
their original order, each as the pair of its email and role; the result is empty exactly
when every entry is an admin. -/
theorem userMonitorRolesToSet_excludes_admins (userRoles : List UserRoles) :
    userMonitorRolesToSet userRoles
        = (userRoles.filter (fun r => !r.Admin)).map
            (fun r => { email := r.Email, role := r.Role })
      ∧ (userMonitorRolesToSet userRoles = [] ↔ ∀ r ∈ userRoles, r.Admin = true) := by
  refine ⟨userMonitorRolesToSet_eq userRoles, ?_⟩
  rw [userMonitorRolesToSet_eq]
  simp [List.filter_eq_nil_iff]

/-- C2: round trip. When `teamFromResourceData` builds a team `r` from a record, in either
variant, and `teamMonitorToResourceData` writes `r` back into the record, then
`teamFromResourceData` builds the same team `r` from the resulting record: every field
agrees (theme, name, description, show, filter, the capability booleans, default team,
user roles, entry point, namespace filters), whether or not a write failed part-way. -/
theorem teamFromResourceData_roundtrip {σ : Type} (cfg : ResourceData)
    (clients : SysdigClients σ) (r : Team)
    (h : teamFromResourceData cfg clients.GetClientType = some r) :
    teamFromResourceData (teamMonitorToResourceData cfg clients r).2 clients.GetClientType
      = some r := by
  have hr := teamFromResourceData_inv cfg clients.GetClientType r h
  subst hr
  rw [teamFromResourceData_congr cfg _ _ (mapper_agrees cfg clients)]
  exact h

/-- Witness of C2 on `exampleRecord`, in the IBM variant. -/
theorem teamFromResourceData_roundtrip_witness :
    teamFromResourceData exampleRecord ClientType.IBMMonitor = some exampleTeam ∧
      teamFromResourceData
        (teamMonitorToResourceData exampleRecord (clientsOf storeClient ClientType.IBMMonitor)
          exampleTeam).2 ClientType.IBMMonitor = some exampleTeam :=
  ⟨rfl, teamFromResourceData_roundtrip exampleRecord
    (clientsOf storeClient ClientType.IBMMonitor) exampleTeam rfl⟩

/-- C3: `updateNamespaceFilters` returns a block (never nil) whose platform-metrics filter
is the update's value when the update sets one, and the value of the existing block
(absent when there was no block) when the update sets none. -/
theorem updateNamespaceFilters_merge (filters : Option NamespaceFilters)
    (update : NamespaceFilters) :
    ∃ res, updateNamespaceFilters filters update = some res ∧
      res.IBMPlatformMetrics =
        (match update.IBMPlatformMetrics with
          | some v => some v
          | none =>
            match filters with
            | some f => f.IBMPlatformMetrics
            | none => none) := by
  unfold updateNamespaceFilters
  refine ⟨_, rfl, ?_⟩
  cases update.IBMPlatformMetrics <;> cases filters <;> rfl

/-- C8: `entrypointToSet` gives the empty list for an absent entry point, and for a present
one the list of the single map with the module as type and the selection as selection. -/
theorem entrypointToSet_spec :
    entrypointToSet none = [] ∧
      ∀ e : EntryPoint, entrypointToSet (some e) = [{ type := e.Module, selection := e.Selection }] :=
  ⟨rfl, fun _ => rfl⟩

/-- C5: when the client's `GetTeamById` returns an error, `resourceSysdigMonitorTeamRead`
returns that error as its diagnostic and leaves the identity empty; and when the lookup
succeeds but a write of `teamMonitorToResourceData` fails, it returns the write's error
and leaves the identity empty. -/
theorem read_failure_clears_identity {σ : Type} (clients : SysdigClients σ)
    (client : TeamInterface σ) (st : State σ)
    (hclient : getMonitorTeamClient clients = .ok client) :
    (∀ err s, client.GetTeamById st.server (Atoi st.d.Id).1 = (.error err, s) →
        (resourceSysdigMonitorTeamRead clients st).1 = FromErr err ∧
        (resourceSysdigMonitorTeamRead clients st).2.d.Id = "") ∧
    (∀ t s err d, client.GetTeamById st.server (Atoi st.d.Id).1 = (.ok t, s) →
        teamMonitorToResourceData st.d clients t = (some err, d) →
        (resourceSysdigMonitorTeamRead clients st).1 = FromErr err ∧
        (resourceSysdigMonitorTeamRead clients st).2.d.Id = "") := by
  constructor
  · intro err s hget
    rw [read_of_get_error clients client st err s hclient hget]
    exact ⟨rfl, rfl⟩
  · intro t s err d hget hwrite
    rw [read_of_write_error clients client st t err s d hclient hget hwrite]
    exact ⟨rfl, rfl⟩

/-- Witness of C5: a lookup that fails on `exampleRecord` with identity `42`, and a lookup
that succeeds on a record whose schema declares no key, so that the first write fails. -/
theorem read_failure_clears_identity_witness :
    ((resourceSysdigMonitorTeamRead (clientsOf lostClient ClientType.IBMMonitor)
        { d := exampleRecord.SetId "42", server := none, calls := [] }).1
        = FromErr "team not found" ∧
      (resourceSysdigMonitorTeamRead (clientsOf lostClient ClientType.IBMMonitor)
        { d := exampleRecord.SetId "42", server := none, calls := [] }).2.d.Id = "") ∧
    ((resourceSysdigMonitorTeamRead (clientsOf storeClient ClientType.IBMMonitor)
        { d := { exampleRecord with schema := [], id := "0" }, server := some exampleTeam,
          calls := [] }).1
        = FromErr "Invalid address to set: version" ∧
      (resourceSysdigMonitorTeamRead (clientsOf storeClient ClientType.IBMMonitor)
        { d := { exampleRecord with schema := [], id := "0" }, server := some exampleTeam,
          calls := [] }).2.d.Id = "") :=
  ⟨(read_failure_clears_identity (clientsOf lostClient ClientType.IBMMonitor) lostClient
      { d := exampleRecord.SetId "42", server := none, calls := [] } rfl).1
      "team not found" none rfl,
   (read_failure_clears_identity (clientsOf storeClient ClientType.IBMMonitor) storeClient
      { d := { exampleRecord with schema := [], id := "0" }, server := some exampleTeam,
        calls := [] } rfl).2
      exampleTeam (some exampleTeam) "Invalid address to set: version"
      { exampleRecord with schema := [], id := "0" } rfl rfl⟩

/-- C6, at a failing input: with a client whose `CreateTeam` and `UpdateTeam` succeed and
whose `GetTeamById` returns an error, the read returns that error, but
`resourceSysdigMonitorTeamCreate` and `resourceSysdigMonitorTeamUpdate`, which make the
same failing `GetTeamById` call in their follow-up read, return no diagnostic. -/
theorem follow_up_read_error_is_dropped :
    (resourceSysdigMonitorTeamRead (clientsOf lostClient ClientType.IBMMonitor)
        { d := exampleRecord.SetId "42", server := none, calls := [] }).1
      = ["team not found"] ∧
    (resourceSysdigMonitorTeamCreate (clientsOf lostClient ClientType.IBMMonitor)
        exampleState).map (fun out => (out.1, out.2.calls))
      = some ([], [Call.CreateTeam (createArg exampleTeam), Call.GetTeamById 42]) ∧
    (resourceSysdigMonitorTeamUpdate (clientsOf lostClient ClientType.IBMMonitor)
        { d := exampleRecord.SetId "42", server := none, calls := [] }).map
          (fun out => (out.1, out.2.calls))
      = some ([], [Call.UpdateTeam (updateArg exampleTeam 0 42), Call.GetTeamById 42]) :=
  ⟨rfl, rfl, rfl⟩

/-- C4 as stated fails: the client `lostClient` creates the team with ID 42, yet after
`resourceSysdigMonitorTeamCreate` the stored identity is empty, not `42`, and a
subsequent delete calls `DeleteTeam` with 0. -/
theorem create_identity_counterexample :
    (lostClient.CreateTeam exampleState.server (createArg exampleTeam)).1
      = .ok { createArg exampleTeam with ID := 42, Version := 1 } ∧
    (resourceSysdigMonitorTeamCreate (clientsOf lostClient ClientType.IBMMonitor)
        exampleState).map
          (fun out => (out.2.d.Id,
            (resourceSysdigMonitorTeamDelete (clientsOf lostClient ClientType.IBMMonitor)
              out.2).2.calls.getLast?))
      = some ("", some (Call.DeleteTeam 0)) :=
  ⟨rfl, rfl⟩

/-- C4, amended: when `CreateTeam` succeeds returning a team with ID `n` and the follow-up
read succeeds (the lookup of `n` returns a team with ID `n` and every write succeeds),
`resourceSysdigMonitorTeamCreate` returns no diagnostic, the stored identity is the decimal
string of `n`, and a subsequent `resourceSysdigMonitorTeamDelete` on that record calls
`DeleteTeam` with `n`. -/
theorem create_identity_lifecycle {σ : Type} (clients : SysdigClients σ)
    (client : TeamInterface σ) (st : State σ) (team0 team t : Team) (s1 s2 : σ)
    (d2 : ResourceData) (n : Int)
    (hclient : getMonitorTeamClient clients = .ok client)
    (hteam : teamFromResourceData st.d clients.GetClientType = some team0)
    (hcreate : client.CreateTeam st.server (createArg team0) = (.ok team, s1))
    (hn : team.ID = n) (hint : IsGoInt n)
    (hget : client.GetTeamById s1 n = (.ok t, s2)) (hid : t.ID = n)
    (hwrite : teamMonitorToResourceData (st.d.SetId (Itoa n)) clients t = (none, d2)) :
    ∃ st1, resourceSysdigMonitorTeamCreate clients st = some ([], st1) ∧
      st1.d.Id = Itoa n ∧
      ∀ st2 : State σ, st2.d = st1.d →
        (resourceSysdigMonitorTeamDelete clients st2).2.calls
          = st2.calls ++ [Call.DeleteTeam n] := by
  subst hn
  have hat : (Atoi (Itoa team.ID)).1 = team.ID := by rw [Atoi_Itoa team.ID hint]
  have hread := read_of_success clients client
    { d := st.d.SetId (Itoa team.ID), server := s1,
      calls := st.calls ++ [Call.CreateTeam (createArg team0)] } t s2 d2 hclient
    (by show client.GetTeamById s1 (Atoi (Itoa team.ID)).1 = _; rw [hat]; exact hget) hwrite
  have hd2 : d2.id = Itoa team.ID := by
    have := mapper_id (st.d.SetId (Itoa team.ID)) clients t
    rw [hwrite, hid] at this
    exact this
  refine ⟨{ d := d2, server := s2,
            calls := (st.calls ++ [Call.CreateTeam (createArg team0)])
              ++ [Call.GetTeamById team.ID] }, ?_, hd2, ?_⟩
  · rw [create_unfold clients client st team0 hclient hteam, hcreate]
    simp only []
    rw [hread]
    show some (([] : Diagnostics), State.mk d2 s2
      ((st.calls ++ [Call.CreateTeam (createArg team0)])
        ++ [Call.GetTeamById (Atoi (Itoa team.ID)).1])) = _
    rw [hat]
  · intro st2 hst2
    rw [delete_calls clients client st2 hclient, hst2]
    show _ ++ [Call.DeleteTeam (Atoi d2.id).1] = _
    rw [hd2, hat]

theorem declaresCommon_of_schema (d d1 : ResourceData) (h : d1.schema = d.schema)
    (hd : DeclaresCommon d) : DeclaresCommon d1 := by
  unfold DeclaresCommon at hd ⊢
  simp only [declares_of_schema d d1 h]
  exact hd

/-- C7: after a successful `resourceSysdigMonitorTeamRead` in which `GetTeamById` returned
the team `t`, a `resourceSysdigMonitorTeamUpdate` run on the resulting record does not
fail an assertion, builds a team `t0` with `teamFromResourceData` and passes to the client's
`UpdateTeam`, as its first call, that team with the ID `t.ID`, the version `t.Version` and
the product list `["SDC"]`. -/
theorem update_passes_id_and_version {σ : Type} (clients : SysdigClients σ)
    (client : TeamInterface σ) (st : State σ) (t : Team) (s1 : σ)
    (hclient : getMonitorTeamClient clients = .ok client)
    (hget : client.GetTeamById st.server (Atoi st.d.Id).1 = (.ok t, s1))
    (hread : (resourceSysdigMonitorTeamRead clients st).1 = [])
    (hint : IsGoInt t.ID) (st1 : State σ)
    (hst1 : st1.d = (resourceSysdigMonitorTeamRead clients st).2.d) :
    ∃ t0 out rest, teamFromResourceData st1.d clients.GetClientType = some t0 ∧
      resourceSysdigMonitorTeamUpdate clients st1 = some out ∧
      out.2.calls = st1.calls ++ Call.UpdateTeam (updateArg t0 t.Version t.ID) :: rest ∧
      (updateArg t0 t.Version t.ID).ID = t.ID ∧
      (updateArg t0 t.Version t.ID).Version = t.Version ∧
      (updateArg t0 t.Version t.ID).Products = ["SDC"] := by
  rcases hw : teamMonitorToResourceData st.d clients t with ⟨e, d⟩
  cases e with
  | some err =>
    rw [read_of_write_error clients client st t err s1 d hclient hget hw] at hread
    exact absurd hread (by simp [FromErr])
  | none =>
    rw [read_of_success clients client st t s1 d hclient hget hw] at hst1
    have hst1d : st1.d = d := hst1
    have h1 : (teamMonitorToResourceData st.d clients t).1 = none := by rw [hw]
    obtain ⟨c1, c2, c3, c4⟩ := mapper_ok st.d clients t h1
    have hs : d.schema = st.d.schema := by
      have := mapper_schema st.d clients t
      rw [hw] at this
      exact this
    have hid : d.id = Itoa t.ID := by
      have := mapper_id st.d clients t
      rw [hw] at this
      exact this
    have hver : d.stored "version" = .int t.Version := by
      rw [hw] at c3
      exact c3
    have hteam : teamFromResourceData d clients.GetClientType
        = some (teamOf d clients.GetClientType) :=
      teamFromResourceData_of_declared d _ (declaresCommon_of_schema st.d d hs c1)
        (fun hv => by rw [declares_of_schema st.d d hs]; exact c4 hv)
    have hversion : (d.Get "version").asInt = some t.Version := by
      rw [Get_of_declared d "version" (by rw [declares_of_schema st.d d hs]; exact c2), hver]
      rfl
    have hat : (Atoi d.Id).1 = t.ID := by
      show (Atoi d.id).1 = t.ID
      rw [hid, Atoi_Itoa t.ID hint]
    rw [hst1d]
    have hu := update_unfold clients client st1 (teamOf d clients.GetClientType) t.Version
      hclient (by rw [hst1d]; exact hteam) (by rw [hst1d]; exact hversion)
    rw [hst1d, hat] at hu
    rcases hupd : client.UpdateTeam st1.server
        (updateArg (teamOf d clients.GetClientType) t.Version t.ID) with ⟨res, s2⟩
    rw [hupd] at hu
    cases res with
    | error err =>
      exact ⟨_, _, [], hteam, hu, rfl, rfl, rfl, rfl⟩
    | ok t2 =>
      refine ⟨_, _, [Call.GetTeamById t.ID], hteam, hu, ?_, rfl, rfl, rfl⟩
      show (resourceSysdigMonitorTeamRead clients _).2.calls = _
      rw [read_calls clients client _ hclient]
      show _ ++ [Call.GetTeamById (Atoi d.Id).1] = _
      rw [hat]
      simp

/-- Witness of C7: the read of team 42 at version 7 on `exampleRecord`, then the update. -/
theorem update_passes_id_and_version_witness :
    ∃ t0 out rest,
      teamFromResourceData
        (resourceSysdigMonitorTeamRead (clientsOf storeClient ClientType.IBMMonitor)
          { d := exampleRecord.SetId "42",
            server := some { exampleTeam with ID := 42, Version := 7 }, calls := [] }).2.d
        ClientType.IBMMonitor = some t0 ∧
      resourceSysdigMonitorTeamUpdate (clientsOf storeClient ClientType.IBMMonitor)
        (resourceSysdigMonitorTeamRead (clientsOf storeClient ClientType.IBMMonitor)
          { d := exampleRecord.SetId "42",
            server := some { exampleTeam with ID := 42, Version := 7 }, calls := [] }).2
        = some out ∧
      out.2.calls =
        (resourceSysdigMonitorTeamRead (clientsOf storeClient ClientType.IBMMonitor)
          { d := exampleRecord.SetId "42",
            server := some { exampleTeam with ID := 42, Version := 7 }, calls := [] }).2.calls
          ++ Call.UpdateTeam (updateArg t0 7 42) :: rest ∧
      (updateArg t0 7 42).ID = 42 ∧
      (updateArg t0 7 42).Version = 7 ∧
      (updateArg t0 7 42).Products = ["SDC"] :=
  update_passes_id_and_version (clientsOf storeClient ClientType.IBMMonitor) storeClient
    { d := exampleRecord.SetId "42",
      server := some { exampleTeam with ID := 42, Version := 7 }, calls := [] }
    { exampleTeam with ID := 42, Version := 7 }
    (some { exampleTeam with ID := 42, Version := 7 })
    rfl rfl rfl ⟨by decide, by decide⟩ _ rfl

/-- Witness of C4 (amended): `storeClient` creates the team with ID 42 and finds it again;
the identity stored by the create is `42`, the decimal string of 42. -/
theorem create_identity_lifecycle_witness :
    Itoa 42 = "42" ∧
    ∃ st1, resourceSysdigMonitorTeamCreate (clientsOf storeClient ClientType.IBMMonitor)
        exampleState = some ([], st1) ∧
      st1.d.Id = Itoa 42 ∧
      ∀ st2 : State (Option Team), st2.d = st1.d →
        (resourceSysdigMonitorTeamDelete (clientsOf storeClient ClientType.IBMMonitor) st2).2.calls
          = st2.calls ++ [Call.DeleteTeam 42] :=
  ⟨rfl, create_identity_lifecycle (clientsOf storeClient ClientType.IBMMonitor) storeClient
    exampleState exampleTeam { createArg exampleTeam with ID := 42, Version := 1 }
    { createArg exampleTeam with ID := 42, Version := 1 }
    (some { createArg exampleTeam with ID := 42, Version := 1 })
    (some { createArg exampleTeam with ID := 42, Version := 1 })
    (teamMonitorToResourceData (exampleRecord.SetId (Itoa 42))
      (clientsOf storeClient ClientType.IBMMonitor)
      { createArg exampleTeam with ID := 42, Version := 1 }).2
    42 rfl rfl rfl rfl ⟨by decide, by decide⟩ rfl rfl rfl⟩

end Sysdig

namespace Codeowner

theorem getD_append_cons (pre : List String) (x : String) (xs : List String) (d : String) :
    (pre ++ x :: xs).getD pre.length d = x := by
  induction pre with
  | nil => rfl
  | cons p ps ih => simpa using ih

theorem set_append_cons (pre : List String) (x y : String) (xs : List String) :
    (pre ++ x :: xs).set pre.length y = pre ++ y :: xs := by
  induction pre with
  | nil => rfl
  | cons p ps ih => simp

theorem ownersLoop_append (post pre : List String) (fuel : Nat) (h : post.length ≤ fuel) :
    ownersLoop fuel pre.length (pre ++ post) = pre ++ post.map (fun tok => Sprintf (handle tok)) := by
  induction post generalizing pre fuel with
  | nil =>
    cases fuel with
    | zero => simp [ownersLoop]
    | succ f => simp [ownersLoop]
  | cons x xs ih =>
    cases fuel with
    | zero => simp at h
    | succ f =>
      have hlt : pre.length < (pre ++ x :: xs).length := by simp
      unfold ownersLoop
      rw [if_pos hlt]
      simp only [getD_append_cons, set_append_cons]
      have := ih (pre ++ [Sprintf (TrimSuffix (TrimPrefix x "<@") ">")]) f (by simpa using h)
      simpa [handle] using this

theorem ownersLoop_eq (owners : List String) :
    ownersLoop owners.length 0 owners = owners.map (fun tok => Sprintf (handle tok)) := by
  simpa using ownersLoop_append owners [] owners.length (le_refl _)

theorem starLoop_of_accept (p : Char → Bool) (k : List Char → Bool) (s : List Char)
    (h : k s = true) : starLoop p k s = true := by
  cases s with
  | nil => simpa [starLoop] using h
  | cons c cs => simp [starLoop, h]

theorem matchItems_literal (l : List Char) (rest : List Item) (s : List Char) :
    matchItems (l.map (fun a => Item.one (fun c => c == a)) ++ rest) s
      = (l.isPrefixOf s && matchItems rest (s.drop l.length)) := by
  induction l generalizing s with
  | nil => simp [List.isPrefixOf]
  | cons a as ih =>
    cases s with
    | nil => simp [matchItems, List.isPrefixOf]
    | cons c cs =>
      show ((c == a) && matchItems (as.map (fun a => Item.one (fun c => c == a)) ++ rest) cs) = _
      rw [ih]
      by_cases hca : c = a
      · subst hca; simp [List.isPrefixOf]
      · have h1 : (a == c) = false := by simpa using fun h => hca h.symm
        have h2 : (c == a) = false := by simpa using hca
        simp [List.isPrefixOf, h1, h2]

theorem matchItems_tail (p : Char → Bool) (s : List Char) :
    matchItems [Item.plus p, Item.star anyChar] s
      = (match s with | [] => false | c :: _ => p c) := by
  cases s with
  | nil => rfl
  | cons c cs =>
    have h1 : starLoop p (matchItems [Item.star anyChar]) cs = true := by
      apply starLoop_of_accept
      show starLoop anyChar (matchItems []) cs = true
      apply starLoop_of_accept
      rfl
    show (p c && starLoop p (matchItems [Item.star anyChar]) cs) = p c
    rw [h1]
    simp

theorem isPrefixOf_snoc (l : List Char) (a : Char) (s : List Char) :
    (l ++ [a]).isPrefixOf s
      = (l.isPrefixOf s && (match s.drop l.length with | [] => false | c :: _ => c == a)) := by
  induction l generalizing s with
  | nil =>
    cases s with
    | nil => rfl
    | cons c cs =>
      simp [List.isPrefixOf]
      constructor <;> intro h <;> exact h.symm
  | cons b bs ih =>
    cases s with
    | nil => simp [List.isPrefixOf]
    | cons c cs => simp [List.isPrefixOf, ih, Bool.and_assoc]

theorem MatchString_reportPattern (c : String) :
    MatchString reportPattern c = HasPrefix c "report to: " := by
  unfold MatchString reportPattern literal HasPrefix
  rw [matchItems_literal, matchItems_tail]
  have : ("report to: " : String).data = ("report to:" : String).data ++ [' '] := rfl
  rw [this, isPrefixOf_snoc]

theorem handle_wrapped (h : String) : handle ("<@" ++ h ++ ">") = h := by
  have hd : ("<@" ++ h ++ ">").data = '<' :: '@' :: (h.data ++ ['>']) := by
    simp [String.data_append]
  have hp : HasPrefix ("<@" ++ h ++ ">") "<@" = true := by
    unfold HasPrefix
    rw [hd]
    show List.isPrefixOf ['<', '@'] _ = true
    simp [List.isPrefixOf]
  have h1 : TrimPrefix ("<@" ++ h ++ ">") "<@" = ⟨h.data ++ ['>']⟩ := by
    unfold TrimPrefix
    rw [if_pos hp, hd]
    rfl
  have hs : HasSuffix ⟨h.data ++ ['>']⟩ ">" = true := by
    unfold HasSuffix
    show List.isSuffixOf ['>'] (h.data ++ ['>']) = true
    simp [List.isSuffixOf]
  unfold handle
  rw [h1]
  unfold TrimSuffix
  rw [if_pos hs]
  show String.mk (List.take ((h.data ++ ['>']).length - 1) (h.data ++ ['>'])) = h
  simp

theorem handle_bare (h : String) (hp : HasPrefix h "<@" = false) (hs : HasSuffix h ">" = false) :
    handle h = h := by
  unfold handle TrimPrefix
  rw [hp]
  simp only [Bool.false_eq_true, if_false]
  unfold TrimSuffix
  rw [hs]
  simp

theorem TrimSuffix_eq_empty (u : String) : TrimSuffix u ">" = "" ↔ u = "" ∨ u = ">" := by
  unfold TrimSuffix HasSuffix
  rcases u with ⟨l⟩
  show (if List.isSuffixOf ['>'] l = true then String.mk (l.take (l.length - 1)) else String.mk l) = "" ↔ _
  by_cases hs : List.isSuffixOf ['>'] l = true
  · rw [if_pos hs]
    rw [List.isSuffixOf_iff_suffix] at hs
    obtain ⟨t, rfl⟩ := hs
    simp [String.ext_iff]
  · rw [if_neg hs]
    constructor
    · intro h; exact Or.inl h
    · rintro (h | h)
      · exact h
      · exfalso; apply hs
        have : l = ['>'] := by simpa [String.ext_iff] using h
        rw [this]; rfl

theorem handle_eq_empty (tok : String) :
    handle tok = "" ↔ tok = "" ∨ tok = "<@" ∨ tok = ">" ∨ tok = "<@>" := by
  unfold handle
  rw [TrimSuffix_eq_empty]
  unfold TrimPrefix HasPrefix
  rcases tok with ⟨l⟩
  by_cases hp : List.isPrefixOf ("<@" : String).data l = true
  · rw [if_pos hp]
    rw [List.isPrefixOf_iff_prefix] at hp
    obtain ⟨t, rfl⟩ := hp
    simp [String.ext_iff]
  · rw [if_neg hp]
    have h1 : String.mk l ≠ "<@" := by
      intro h; apply hp; rw [String.ext_iff] at h; simp at h; rw [h]; rfl
    have h2 : String.mk l ≠ "<@>" := by
      intro h; apply hp; rw [String.ext_iff] at h; simp at h; rw [h]; rfl
    simp [h1, h2]

theorem LoadOwners_ok (c : String) (hacc : MatchString reportPattern c = true) :
    LoadOwners (.ok ⟨c⟩)
      = .ok ((Split (TrimSpace (TrimPrefix c "report to: ")) ' ').map
          (fun token => Sprintf (handle token))) := by
  unfold LoadOwners
  simp only [hacc, Bool.not_true, Bool.false_eq_true, if_false]
  rw [ownersLoop_eq]

/-- C9 as stated fails: the comment `report to: alice  bob`, with two spaces between the
names, is accepted, and the list returned has the element `<@>`, which is not a mention
with a non-empty handle. -/
theorem LoadOwners_empty_handle_counterexample :
    MatchString reportPattern "report to: alice  bob" = true ∧
    LoadOwners (.ok ⟨"report to: alice  bob"⟩) = .ok ["<@alice>", "<@>", "<@bob>"] ∧
    ¬ ∃ h : String, h ≠ "" ∧ "<@>" = "<@" ++ h ++ ">" := by
  refine ⟨rfl, rfl, ?_⟩
  rintro ⟨h, hne, heq⟩
  apply hne
  rw [String.ext_iff] at heq ⊢
  simp [String.data_append] at heq
  have hl := congrArg List.length heq
  simp at hl
  have hd : h.data.length = 0 := hl
  simpa using List.length_eq_zero.mp hd

/-- C9, amended: for an accepted rule comment, `LoadOwners` returns the list obtained by
removing one leading `report to: ` from the comment, trimming white space at both ends,
splitting at every space, and mapping each token to `<@` handle `>`, the handle being the
token without a leading `<@` and a trailing `>`. A token `<@h>` is returned unchanged and
a bare `h` becomes `<@h>`. The handle of a token is empty exactly for the tokens ``,
`<@`, `>` and `<@>`, so an empty token gives the element `<@>`. -/
theorem LoadOwners_mentions (c : String) (hacc : MatchString reportPattern c = true) :
    LoadOwners (.ok ⟨c⟩)
        = .ok ((Split (TrimSpace (TrimPrefix c "report to: ")) ' ').map
            (fun token => "<@" ++ handle token ++ ">"))
      ∧ (∀ h : String, "<@" ++ handle ("<@" ++ h ++ ">") ++ ">" = "<@" ++ h ++ ">")
      ∧ (∀ h : String, HasPrefix h "<@" = false → HasSuffix h ">" = false →
          "<@" ++ handle h ++ ">" = "<@" ++ h ++ ">")
      ∧ (∀ token : String,
          handle token = "" ↔ token = "" ∨ token = "<@" ∨ token = ">" ∨ token = "<@>") := by
  refine ⟨LoadOwners_ok c hacc, ?_, ?_, handle_eq_empty⟩
  · intro h; rw [handle_wrapped]
  · intro h hp hs; rw [handle_bare h hp hs]

/-- Witness of C9 (amended) on the comment `report to: <@alice> <@bob>`. -/
theorem LoadOwners_mentions_witness :
    MatchString reportPattern "report to: <@alice> <@bob>" = true ∧
    LoadOwners (.ok ⟨"report to: <@alice> <@bob>"⟩) = .ok ["<@alice>", "<@bob>"] :=
  ⟨rfl, (LoadOwners_mentions "report to: <@alice> <@bob>" rfl).1.trans rfl⟩

/-- C10 as stated fails: the comment `report to:` followed by a tab matches the pattern
`^report to:\s+.*`, and `LoadOwners` fails on it with `missing report comment`. -/
theorem LoadOwners_tab_counterexample :
    MatchString specPattern "report to:\t<@alice>" = true ∧
    LoadOwners (.ok ⟨"report to:\t<@alice>"⟩) = .error "missing report comment" :=
  ⟨rfl, rfl⟩

/-- C10, amended: the pattern of the source matches a comment exactly when the comment
begins with `report to:` followed by a space character (U+0020); `LoadOwners` fails with
`missing report comment` exactly on the comments that do not, and returns a list of owners
exactly on those that do. -/
theorem LoadOwners_report_check (c : String) :
    MatchString reportPattern c = HasPrefix c "report to: " ∧
    (LoadOwners (.ok ⟨c⟩) = .error "missing report comment" ↔ HasPrefix c "report to: " = false) ∧
    ((∃ owners, LoadOwners (.ok ⟨c⟩) = .ok owners) ↔ HasPrefix c "report to: " = true) := by
  refine ⟨MatchString_reportPattern c, ?_, ?_⟩
  · rw [← MatchString_reportPattern]
    cases hm : MatchString reportPattern c with
    | true => rw [LoadOwners_ok c hm]; simp
    | false => simp [LoadOwners, hm]
  · rw [← MatchString_reportPattern]
    cases hm : MatchString reportPattern c with
    | true => rw [LoadOwners_ok c hm]; simp
    | false => simp [LoadOwners, hm]

end Codeowner
